import Mathlib

/-!
Verification of the polymarket-cabinet reconciliation and stop-loss engine.

Shallow embedding of the Python backend:
  * `app/models/{user,position,order}.py`   → the `User`, `Position`, `Order` structures
  * `app/crud/position.py`                  → `upsert_many_positions`, `zero_missing_positions`
  * `app/crud/order.py`                     → `upsert_many_orders`, `resolve_missing_live_orders`
  * `app/services/portfolio_service.py`     → `sync_positions`
  * `app/services/order_service.py`         → `sync_orders`, `_map_status`
  * `app/services/trading_service.py`       → `market_sell`, `set_take_profit`, `set_stop_loss`,
                                              `remove_stop_loss`, `edit_order`, `cancel_order`,
                                              `check_stop_losses`

Conventions of the embedding:
  * Database rows live in lists inside a `DB` record; primary keys are `Nat`
    (standing for the UUIDs, whose only used property is identity), and the
    `next_id` counter stands for fresh-UUID generation.
  * Decimal / float quantities are `ℚ`.  Timestamps are `Nat` and are passed
    in explicitly as a `now` argument where the code calls `func.now()` /
    `datetime.now()`.
  * The external CLOB/Data API is a `Gateway` of pure oracles; an HTTP or SDK
    failure is an `Except.error`.
  * Python exceptions are `Except.error`; a service call returns its result
    together with the database state after its commits.  A raise before any
    commit leaves the returned database unchanged (the session is closed
    without commit, discarding dirty ORM state).
  * SQLAlchemy `scalar_one_or_none` on a unique key is `List.find?`; mutation
    of the fetched ORM object is `updateFirst` (first match), and a bulk
    `UPDATE ... WHERE` is `updateWhere`.  The uniqueness constraints
    `uq_positions_user_token`, `uq_orders_user_pm_order` and the primary keys
    appear as `Nodup` hypotheses where a theorem needs them.
-/

namespace Cabinet

/-- `app/models/user.py` — credential fields are nullable; the model's
`has_private_key` / `has_polymarket_creds` properties are methods below. -/
structure User where
  id : Nat
  wallet_address : String
  proxy_wallet : Option String
  encrypted_api_key : Option String
  encrypted_api_secret : Option String
  encrypted_passphrase : Option String
  encrypted_private_key : Option String
deriving DecidableEq, Repr

def User.has_private_key (u : User) : Bool :=
  u.encrypted_private_key.isSome

def User.has_polymarket_creds (u : User) : Bool :=
  u.encrypted_api_key.isSome && u.encrypted_api_secret.isSome &&
    u.encrypted_passphrase.isSome

/-- `app/models/position.py` -/
structure Position where
  id : Nat
  user_id : Nat
  market_id : String
  token_id : String
  outcome : String
  size : ℚ
  avg_price : ℚ
  current_price : Option ℚ
  realized_pnl : ℚ
  synced_at : Option Nat
  title : Option String
  slug : Option String
  icon : Option String
  redeemable : Bool
  take_profit_price : Option ℚ
  stop_loss_price : Option ℚ
  tp_order_id : Option String
  updated_at : Nat
deriving DecidableEq, Repr

/-- `app/models/order.py` -/
structure Order where
  id : Nat
  user_id : Nat
  market_id : String
  token_id : String
  polymarket_order_id : String
  side : String
  outcome : String
  order_type : String
  size : ℚ
  price : ℚ
  size_filled : ℚ
  status : String
  market_question : Option String
  position_id : Option Nat
  placed_at : Option Nat
  updated_at : Nat
deriving DecidableEq, Repr

/-- The relational store (`positions`, `orders`, `users` tables). -/
structure DB where
  users : List User
  positions : List Position
  orders : List Order
  next_id : Nat
deriving Repr

/-- Return shape of `py_clob_client.create_and_post_order`: the service's
defensive parsing accepts an object with an `id` attribute, a mapping with
`id`/`orderID` keys, or a raw value (stringified). -/
inductive ClobResult where
  | obj (id : String)
  | mapping (id : Option String) (orderID : Option String)
  | raw (s : String)
deriving DecidableEq, Repr

/-- `py_clob_client.clob_types.OrderArgs` as used by the service. -/
structure OrderArgs where
  token_id : String
  price : ℚ
  size : ℚ
  side : String
deriving DecidableEq, Repr

/-- The external market gateway (`polymarket_client.get_price`, and the
authenticated `ClobClient` calls).  Oracles are pure: a transport error or
SDK exception is `Except.error`.  `get_price` returning `none` covers both
"no price" and a swallowed HTTP error (the client returns `None` on error). -/
structure Gateway where
  get_price : String → String → Option ℚ
  create_and_post_order : OrderArgs → Except String ClobResult
  cancel : String → Except String Unit

/-- Order-id extraction from the SDK response (`trading_service.py` lines
131–136): `result.id` attribute, else `result.get("id", result.get("orderID", ""))`,
else `str(result)`. -/
def extract_order_id : ClobResult → String
  | .obj i => i
  | .mapping i o => i.getD (o.getD "")
  | .raw s => s

/-- Python `round` rounds half to even; `round(x, 2)` at rational precision. -/
def roundHalfEven (q : ℚ) : ℤ :=
  let f : ℤ := ⌊q⌋
  if q - f < 1/2 then f
  else if (1:ℚ)/2 < q - f then f + 1
  else if f % 2 = 0 then f else f + 1

/-- `round(price, 2)` from the trading service (modulo binary-float
representation of the argument, which no claim depends on). -/
def round2 (q : ℚ) : ℚ := (roundHalfEven (q * 100) : ℚ) / 100

/-- Python `str.upper()` (kernel-computable form of `String.toUpper`,
i.e. mapping `Char.toUpper` over the characters). -/
def strUpper (s : String) : String := ⟨s.data.map Char.toUpper⟩

/-- `order_service._map_status` — normalize a raw Polymarket order status. -/
def _map_status (raw_status : String) : String :=
  let status := strUpper raw_status
  if status = "LIVE" then "LIVE"
  else if status = "OPEN" then "LIVE"
  else if status = "ACTIVE" then "LIVE"
  else if status = "MATCHED" then "MATCHED"
  else if status = "FILLED" then "MATCHED"
  else if status = "CLOSED" then "MATCHED"
  else if status = "CANCELLED" then "CANCELLED"
  else if status = "CANCELED" then "CANCELLED"
  else if status = "EXPIRED" then "CANCELLED"
  else status

/-! ### List update combinators

`updateWhere` models a SQL `UPDATE ... WHERE P`; `updateFirst` models
mutating the ORM object returned by `scalar_one_or_none` / `find?` (the
first row matching the key — the unique constraints make this the only
matching row in well-formed states). -/

def updateWhere {α : Type} (P : α → Bool) (f : α → α) (l : List α) : List α :=
  l.map (fun a => if P a then f a else a)

def updateFirst {α : Type} (P : α → Bool) (f : α → α) : List α → List α
  | [] => []
  | a :: rest => if P a then f a :: rest else a :: updateFirst P f rest

/-! ### Row lookups (`crud/*.py` queries) -/

/-- `TradingService._get_position`: select by id, verifying ownership;
raises `Position not found` otherwise. -/
def _get_position (db : DB) (user : User) (position_id : Nat) :
    Except String Position :=
  match db.positions.find? (fun p => p.id == position_id && p.user_id == user.id) with
  | none => .error "Position not found"
  | some p => .ok p

/-- `CRUDOrder.get_order_by_id`: select by db id, scoped to user. -/
def get_order_by_id (db : DB) (order_id : Nat) (user_id : Nat) : Option Order :=
  db.orders.find? (fun o => o.id == order_id && o.user_id == user_id)

/-- `CRUDOrder.get_by_synthetic_id`: select by (user, polymarket_order_id). -/
def get_by_synthetic_id (db : DB) (user_id : Nat) (polymarket_order_id : String) :
    Option Order :=
  db.orders.find? (fun o =>
    o.user_id == user_id && o.polymarket_order_id == polymarket_order_id)

/-- `user_crud.get`: select a user by primary key. -/
def get_user (db : DB) (user_id : Nat) : Option User :=
  db.users.find? (fun u => u.id == user_id)

/-! ### Row update helpers -/

def DB.updatePosition (db : DB) (pid : Nat) (f : Position → Position) : DB :=
  { db with positions := updateWhere (fun p => p.id == pid) f db.positions }

def DB.updateOrderById (db : DB) (oid : Nat) (f : Order → Order) : DB :=
  { db with orders := updateWhere (fun o => o.id == oid) f db.orders }

/-- Mutating the ORM `Order` object fetched by `get_by_synthetic_id`. -/
def DB.updateSyntheticOrder (db : DB) (user_id : Nat) (pm_id : String)
    (f : Order → Order) : DB :=
  { db with orders := updateFirst
              (fun o => o.user_id == user_id && o.polymarket_order_id == pm_id)
              f db.orders }

/-- `TradingService._get_clob_client`: validates that the user has a private
key, full Polymarket API credentials, and a proxy wallet; the client object
itself carries no state the embedding needs. -/
def _get_clob_client (user : User) : Except String Unit :=
  if user.encrypted_private_key.isNone then
    .error "Private key not configured. Go to Settings to add it."
  else if !user.has_polymarket_creds then
    .error "Polymarket API credentials not configured."
  else if user.proxy_wallet.isNone then
    .error "Proxy wallet not configured. Go to Settings to add it."
  else
    .ok ()

/-! ### Trading service (`app/services/trading_service.py`) -/

/-- Result dict `{"success": True, "message": ..., "order_id": ...}`. -/
structure ActionOk where
  message : String
  order_id : Option String
deriving DecidableEq, Repr

/-- `TradingService.market_sell` — sell the whole position at the current
best bid (FOK).  The second component is the list of orders submitted to the
exchange (at most one, and exactly one once the gateway is reached), used to
state "submits exactly one sell order".  The database is never written. -/
def market_sell (gw : Gateway) (db : DB) (user : User) (position_id : Nat) :
    Except String ActionOk × List OrderArgs :=
  match _get_position db user position_id with
  | .error e => (.error e, [])
  | .ok position =>
    if position.size ≤ 0 then
      (.error "Position has no tokens to sell", [])
    else
      match gw.get_price position.token_id "sell" with
      | none => (.error "Cannot determine market price. No bids available.", [])
      | some bid_price =>
        if bid_price ≤ 0 then
          (.error "Cannot determine market price. No bids available.", [])
        else
          match _get_clob_client user with
          | .error e => (.error e, [])
          | .ok _ =>
            let order_args : OrderArgs :=
              { token_id := position.token_id, price := round2 bid_price,
                size := position.size, side := "SELL" }
            match gw.create_and_post_order order_args with
            | .error e => (.error e, [order_args])
            | .ok result =>
              (.ok { message := "Market sell order placed for " ++
                       toString position.size ++ " tokens at " ++ toString bid_price,
                     order_id := some (extract_order_id result) },
               [order_args])

/-- `TradingService.set_take_profit` — best-effort cancel of a prior TP
order, then place a GTC sell limit; `take_profit_price` / `tp_order_id` are
committed only after successful placement.  The third component records the
exchange order ids on which a cancel was attempted (its outcome is ignored:
a cancel failure is logged, not fatal). -/
def set_take_profit (gw : Gateway) (db : DB) (user : User) (position_id : Nat)
    (price : ℚ) : Except String ActionOk × DB × List String :=
  match _get_position db user position_id with
  | .error e => (.error e, db, [])
  | .ok position =>
    if position.size ≤ 0 then
      (.error "Position has no tokens to sell", db, [])
    else if price ≤ position.avg_price then
      (.error ("Take profit price (" ++ toString price ++
        ") must be above avg entry (" ++ toString position.avg_price ++ ")"), db, [])
    else
      -- `if position.tp_order_id: try: client.cancel(...) except: log`
      let cancel_attempts :=
        match position.tp_order_id with
        | some tpid =>
          let _ignored : Except String Unit :=
            match _get_clob_client user with
            | .ok _ => gw.cancel tpid
            | .error e => .error e
          [tpid]
        | none => []
      match _get_clob_client user with
      | .error e => (.error e, db, cancel_attempts)
      | .ok _ =>
        let order_args : OrderArgs :=
          { token_id := position.token_id, price := round2 price,
            size := position.size, side := "SELL" }
        match gw.create_and_post_order order_args with
        | .error e => (.error e, db, cancel_attempts)
        | .ok result =>
          let order_id := extract_order_id result
          (.ok { message := "Take profit set at " ++ toString price,
                 order_id := some order_id },
           db.updatePosition position.id (fun p =>
             { p with take_profit_price := some price, tp_order_id := some order_id }),
           cancel_attempts)

/-- The synthetic stop-loss watch order id `sl-<position-id>`. -/
def synthetic_sl_id (position_id : Nat) : String := "sl-" ++ toString position_id

/-- `TradingService.set_stop_loss` — store the SL price on the position and
create (or revive) the synthetic `sl-<position-id>` order row. -/
def set_stop_loss (db : DB) (user : User) (position_id : Nat) (price : ℚ)
    (now : Nat) : Except String ActionOk × DB :=
  match _get_position db user position_id with
  | .error e => (.error e, db)
  | .ok position =>
    if position.size ≤ 0 then
      (.error "Position has no tokens to sell", db)
    else if position.avg_price ≤ price then
      (.error ("Stop loss price (" ++ toString price ++
        ") must be below avg entry (" ++ toString position.avg_price ++ ")"), db)
    else
      let db1 := db.updatePosition position.id
        (fun p => { p with stop_loss_price := some price })
      let sid := synthetic_sl_id position.id
      let db2 :=
        match get_by_synthetic_id db1 user.id sid with
        | some _existing =>
          db1.updateSyntheticOrder user.id sid (fun o =>
            { o with price := price, size := position.size, status := "LIVE",
                     market_question := position.title, placed_at := some now })
        | none =>
          { db1 with
            orders := db1.orders ++
              [{ id := db1.next_id, user_id := user.id,
                 market_id := position.market_id, token_id := position.token_id,
                 polymarket_order_id := sid, side := "SELL",
                 outcome := position.outcome, order_type := "STOP_LOSS",
                 size := position.size, price := price, size_filled := 0,
                 status := "LIVE", market_question := position.title,
                 position_id := some position.id, placed_at := some now,
                 updated_at := now }],
            next_id := db1.next_id + 1 }
      (.ok { message := "Stop loss set at " ++ toString price, order_id := none }, db2)

/-- `TradingService.remove_stop_loss` — clear the SL price and mark the
synthetic order CANCELLED (only if it is LIVE). -/
def remove_stop_loss (db : DB) (user : User) (position_id : Nat) :
    Except String ActionOk × DB :=
  match _get_position db user position_id with
  | .error e => (.error e, db)
  | .ok position =>
    let db1 := db.updatePosition position.id
      (fun p => { p with stop_loss_price := none })
    let sid := synthetic_sl_id position.id
    let db2 :=
      match get_by_synthetic_id db1 user.id sid with
      | some sl_order =>
        if sl_order.status = "LIVE" then
          db1.updateSyntheticOrder user.id sid (fun o => { o with status := "CANCELLED" })
        else db1
      | none => db1
    (.ok { message := "Stop loss removed", order_id := none }, db2)

/-- `TradingService.cancel_order` — cancel a LIVE order.  For STOP_LOSS the
position's SL price is cleared; for exchange orders the CLOB cancel is
best-effort (failure logged) and TP fields are cleared when linked. -/
def cancel_order (gw : Gateway) (db : DB) (user : User) (order_id : Nat) :
    Except String ActionOk × DB :=
  match get_order_by_id db order_id user.id with
  | none => (.error "Order not found", db)
  | some order =>
    if order.status ≠ "LIVE" then
      (.error "Can only cancel LIVE orders", db)
    else if order.order_type = "STOP_LOSS" then
      let db1 :=
        match order.position_id with
        | some pid =>
          match _get_position db user pid with
          | .ok _ => db.updatePosition pid (fun p => { p with stop_loss_price := none })
          | .error _ => db
        | none => db
      (.ok { message := "Stop loss cancelled", order_id := none },
       db1.updateOrderById order.id (fun o => { o with status := "CANCELLED" }))
    else
      match _get_clob_client user with
      | .error e => (.error e, db)
      | .ok _ =>
        let _best_effort := gw.cancel order.polymarket_order_id
        let db1 := db.updateOrderById order.id (fun o => { o with status := "CANCELLED" })
        let db2 :=
          match order.position_id with
          | some pid =>
            match _get_position db1 user pid with
            | .ok position =>
              if position.tp_order_id = some order.polymarket_order_id then
                db1.updatePosition pid (fun p =>
                  { p with take_profit_price := none, tp_order_id := none })
              else db1
            | .error _ => db1
          | none => db1
        (.ok { message := "Order cancelled", order_id := none }, db2)

/-- `TradingService.edit_order` — for STOP_LOSS update price in place; for
exchange orders cancel-then-replace.  Third component: orders submitted. -/
def edit_order (gw : Gateway) (db : DB) (user : User) (order_id : Nat)
    (new_price : ℚ) : Except String ActionOk × DB × List OrderArgs :=
  match get_order_by_id db order_id user.id with
  | none => (.error "Order not found", db, [])
  | some order =>
    if order.status ≠ "LIVE" then
      (.error "Can only edit LIVE orders", db, [])
    else if order.order_type = "STOP_LOSS" then
      let db1 := db.updateOrderById order.id (fun o => { o with price := new_price })
      match order.position_id with
      | some pid =>
        match _get_position db1 user pid with
        | .ok _ =>
          (.ok { message := "Stop loss updated to " ++ toString new_price,
                 order_id := none },
           (db1.updatePosition pid (fun p => { p with stop_loss_price := some new_price })),
           [])
        | .error e => (.error e, db, [])  -- raise before commit: rolled back
      | none =>
        (.ok { message := "Stop loss updated to " ++ toString new_price,
               order_id := none }, db1, [])
    else
      match _get_clob_client user with
      | .error e => (.error e, db, [])
      | .ok _ =>
        match gw.cancel order.polymarket_order_id with
        | .error _ => (.error "Failed to cancel existing order on CLOB", db, [])
        | .ok _ =>
          let remaining := order.size - order.size_filled
          if remaining ≤ 0 then
            -- `order.status = "MATCHED"; await db.commit(); raise ValueError(...)`
            (.error "Order already fully filled",
             db.updateOrderById order.id (fun o => { o with status := "MATCHED" }),
             [])
          else
            let order_args : OrderArgs :=
              { token_id := order.token_id, price := round2 new_price,
                size := remaining, side := order.side }
            match gw.create_and_post_order order_args with
            | .error e => (.error e, db, [order_args])
            | .ok result =>
              let new_clob_id := extract_order_id result
              let db1 := db.updateOrderById order.id (fun o =>
                { o with polymarket_order_id := new_clob_id, price := new_price,
                         size := remaining, size_filled := 0 })
              let db2 :=
                match order.position_id with
                | some pid =>
                  match _get_position db1 user pid with
                  | .ok position =>
                    if position.tp_order_id.isSome || order.order_type = "TAKE_PROFIT" then
                      db1.updatePosition pid (fun p =>
                        { p with take_profit_price := some new_price,
                                 tp_order_id := some new_clob_id })
                    else db1
                  | .error _ => db1
                | none => db1
              (.ok { message := "Order updated to " ++ toString new_price,
                     order_id := some new_clob_id }, db2, [order_args])

/-! ### Risk trigger loop (`TradingService.check_stop_losses`) -/

/-- The update the sweep applies to the synthetic SL order on success:
`sl_order.status = "MATCHED"; sl_order.size_filled = sl_order.size`. -/
def sl_matched_update (o : Order) : Order :=
  { o with status := "MATCHED", size_filled := o.size }

/-- One iteration of the sweep body for one selected position id.
Returns the database after the iteration's commit, the number of triggers
executed (0 or 1), and the position ids for which the sell executor
(`market_sell`) was invoked.  All exceptions inside the loop body are caught
(`except` at the end of each try block), leaving the iteration a no-op. -/
def check_one_stop_loss (gw : Gateway) (db : DB) (pid : Nat) : DB × Nat × List Nat :=
  match db.positions.find? (fun p => p.id == pid) with
  | none => (db, 0, [])
  | some position =>
    match gw.get_price position.token_id "sell" with
    | none => (db, 0, [])
    | some current_price =>
      match position.stop_loss_price with
      | none => (db, 0, [])
      | some sl_price =>
        if current_price ≤ sl_price then
          match get_user db position.user_id with
          | none => (db, 0, [])
          | some user =>
            if !user.has_private_key then (db, 0, [])
            else
              match (market_sell gw db user position.id).1 with
              | .error _ => (db, 0, [pid])
              | .ok _ =>
                let db1 := db.updatePosition position.id
                  (fun p => { p with stop_loss_price := none })
                let sid := synthetic_sl_id position.id
                let db2 :=
                  match get_by_synthetic_id db1 position.user_id sid with
                  | some sl_order =>
                    if sl_order.status = "LIVE" then
                      db1.updateSyntheticOrder position.user_id sid sl_matched_update
                    else db1
                  | none => db1
                (db2, 1, [pid])
        else (db, 0, [])

/-- The sweep's initial selection: positions with a non-null
`stop_loss_price`, `size > 0`, and `redeemable = false`. -/
def sl_eligible (p : Position) : Bool :=
  p.stop_loss_price.isSome && decide (p.size > 0) && !p.redeemable

/-- One iteration of the sweep's `for position in positions:` loop,
accumulating database, trigger count and executor-invocation log. -/
def sweep_step (gw : Gateway) (acc : DB × Nat × List Nat) (pid : Nat) :
    DB × Nat × List Nat :=
  let r := check_one_stop_loss gw acc.1 pid
  (r.1, acc.2.1 + r.2.1, acc.2.2 ++ r.2.2)

/-- `TradingService.check_stop_losses` — scan all eligible positions and
trigger sells; each position is processed and committed independently. -/
def check_stop_losses (gw : Gateway) (db : DB) : DB × Nat × List Nat :=
  let pids := (db.positions.filter sl_eligible).map Position.id
  pids.foldl (sweep_step gw) (db, 0, [])

/-! ### Position reconciliation
(`crud/position.py`, `services/portfolio_service.py`) -/

/-- One raw record from the Polymarket public Data API
(`get_user_positions`): the fields `portfolio_service.sync_positions`
reads.  Numeric fields are already through `_parse_float` (absent/garbage
becomes 0); a missing `asset` is the empty string. -/
structure RawPosition where
  asset : String
  conditionId : String
  size : ℚ
  avgPrice : ℚ
  curPrice : ℚ
  realizedPnl : ℚ
  outcome : String
  title : Option String
  eventSlug : Option String
  slug : Option String
  icon : Option String
  redeemable : Bool
deriving DecidableEq, Repr

/-- The dict `sync_positions` builds for `position_crud.upsert_many`. -/
structure PositionData where
  market_id : String
  token_id : String
  outcome : String
  size : ℚ
  avg_price : ℚ
  current_price : ℚ
  realized_pnl : ℚ
  title : Option String
  slug : Option String
  icon : Option String
  redeemable : Bool
deriving DecidableEq, Repr

/-- One row of the `pg_insert ... on_conflict_do_update` statement of
`CRUDPosition.upsert_many`, keyed on `uq_positions_user_token`:
on conflict overwrite size / avg_price / current_price / realized_pnl /
title / slug / icon / redeemable / synced_at / updated_at; otherwise insert
with a fresh id. -/
def upsert_position_row (uid : Nat) (now : Nat) (db : DB) (d : PositionData) : DB :=
  if db.positions.any (fun r => r.user_id == uid && r.token_id == d.token_id) then
    { db with positions := updateWhere
                (fun r => r.user_id == uid && r.token_id == d.token_id)
                (fun r =>
                  { r with size := d.size, avg_price := d.avg_price,
                           current_price := some d.current_price,
                           realized_pnl := d.realized_pnl, title := d.title,
                           slug := d.slug, icon := d.icon,
                           redeemable := d.redeemable, synced_at := some now,
                           updated_at := now })
                db.positions }
  else
    { db with
      positions := db.positions ++
        [{ id := db.next_id, user_id := uid, market_id := d.market_id,
           token_id := d.token_id, outcome := d.outcome, size := d.size,
           avg_price := d.avg_price, current_price := some d.current_price,
           realized_pnl := d.realized_pnl, synced_at := some now,
           title := d.title, slug := d.slug, icon := d.icon,
           redeemable := d.redeemable, take_profit_price := none,
           stop_loss_price := none, tp_order_id := none, updated_at := now }],
      next_id := db.next_id + 1 }

/-- `CRUDPosition.upsert_many`. -/
def upsert_many_positions (db : DB) (uid : Nat) (rows : List PositionData)
    (now : Nat) : DB × Nat :=
  if rows.isEmpty then (db, 0)
  else (rows.foldl (upsert_position_row uid now) db, rows.length)

/-- `CRUDPosition.zero_missing_positions` — `UPDATE positions SET size=0,
current_price=0, updated_at=now() WHERE user_id=:uid AND size > 0 AND
token_id NOT IN :active_token_ids`. -/
def zero_missing_positions (db : DB) (uid : Nat) (active_token_ids : List String)
    (now : Nat) : DB × Nat :=
  let hit : Position → Bool := fun r =>
    r.user_id == uid && decide (r.size > 0) && !active_token_ids.contains r.token_id
  ({ db with positions := updateWhere hit
               (fun r => { r with size := 0, current_price := some 0, updated_at := now })
               db.positions },
   (db.positions.filter hit).length)

/-- The token-id set `sync_positions` accumulates from every raw record
with an `asset` (`all_token_ids` in the source, including `size == 0`
records). -/
def reported_token_ids (raw_positions : List RawPosition) : List String :=
  (raw_positions.filter (fun r => r.asset ≠ "")).map RawPosition.asset

/-- The transformation of one raw Data-API record into upsert data: skipped
without an `asset`; kept only with `size > 0` and a market (condition) id. -/
def raw_to_position_data (raw : RawPosition) : Option PositionData :=
  if raw.asset = "" then none
  else if raw.size > 0 && raw.conditionId ≠ "" then
    some { market_id := raw.conditionId, token_id := raw.asset,
           outcome := raw.outcome, size := raw.size, avg_price := raw.avgPrice,
           current_price := raw.curPrice, realized_pnl := raw.realizedPnl,
           title := raw.title, slug := (raw.eventSlug <|> raw.slug),
           icon := raw.icon, redeemable := raw.redeemable }
  else none

/-- `PortfolioService.sync_positions` — the raw Data-API response is passed
in (the gateway fetch itself is I/O).  An empty response returns early
without zeroing; otherwise rows with `size > 0` and a market id are
upserted, then positions absent from the full reported token-id set are
zeroed (skipped if that set is empty). -/
def sync_positions (db : DB) (user : User) (raw_positions : List RawPosition)
    (now : Nat) : DB × Nat :=
  if raw_positions.isEmpty then (db, 0)
  else
    let all_token_ids := reported_token_ids raw_positions
    let positions_data := raw_positions.filterMap raw_to_position_data
    let r := upsert_many_positions db user.id positions_data now
    let db2 :=
      if all_token_ids.isEmpty then r.1
      else (zero_missing_positions r.1 user.id all_token_ids now).1
    (db2, r.2)

/-! ### Order reconciliation (`crud/order.py`, `services/order_service.py`) -/

/-- One raw live order from `ClobClient.get_orders()`: the fields
`OrderService.sync_orders` reads.  Numeric fields are already through
`_parse_float`; a missing string field is the empty string. -/
structure RawOrder where
  id : String
  market : String
  asset_id : String
  side : String
  outcome : String
  order_type : String
  original_size : ℚ
  price : ℚ
  size_matched : ℚ
  status : String
  created_at : Option Nat
deriving DecidableEq, Repr

/-- The dict `sync_orders` builds for `order_crud.upsert_many`. -/
structure OrderData where
  polymarket_order_id : String
  market_id : String
  token_id : String
  side : String
  outcome : String
  order_type : String
  size : ℚ
  price : ℚ
  size_filled : ℚ
  status : String
  market_question : Option String
  placed_at : Option Nat
deriving DecidableEq, Repr

/-- One row of `CRUDOrder.upsert_many`'s insert statement, keyed on
`uq_orders_user_pm_order`: on conflict update only size / price /
size_filled / status / market_question / updated_at; otherwise insert a new
row with a fresh id. -/
def upsert_order_row (uid : Nat) (now : Nat) (db : DB) (d : OrderData) : DB :=
  if db.orders.any (fun r =>
       r.user_id == uid && r.polymarket_order_id == d.polymarket_order_id) then
    { db with orders := updateWhere
                (fun r => r.user_id == uid &&
                  r.polymarket_order_id == d.polymarket_order_id)
                (fun r =>
                  { r with size := d.size, price := d.price,
                           size_filled := d.size_filled, status := d.status,
                           market_question := d.market_question,
                           updated_at := now })
                db.orders }
  else
    { db with
      orders := db.orders ++
        [{ id := db.next_id, user_id := uid, market_id := d.market_id,
           token_id := d.token_id,
           polymarket_order_id := d.polymarket_order_id, side := d.side,
           outcome := d.outcome, order_type := d.order_type, size := d.size,
           price := d.price, size_filled := d.size_filled, status := d.status,
           market_question := d.market_question, position_id := none,
           placed_at := d.placed_at, updated_at := now }],
      next_id := db.next_id + 1 }

/-- `CRUDOrder.upsert_many`. -/
def upsert_many_orders (db : DB) (uid : Nat) (rows : List OrderData)
    (now : Nat) : DB × Nat :=
  if rows.isEmpty then (db, 0)
  else (rows.foldl (upsert_order_row uid now) db, rows.length)

/-- The `SELECT` filter of `resolve_missing_live_orders`: the user's LIVE,
non-STOP_LOSS orders, restricted to ids outside the reported live set when
that set is non-empty (the `if live_order_ids:` guard in the source). -/
def resolve_sel (uid : Nat) (live_order_ids : List String) (o : Order) : Bool :=
  o.user_id == uid && o.status == "LIVE" && !(o.order_type == "STOP_LOSS") &&
    (live_order_ids.isEmpty || !live_order_ids.contains o.polymarket_order_id)

/-- `CRUDOrder.resolve_missing_live_orders` — select the
`polymarket_order_id`s of the user's LIVE, non-STOP_LOSS orders that are
not in the reported live set, then mark those ids MATCHED with
`size_filled = size`. -/
def resolve_missing_live_orders (db : DB) (uid : Nat)
    (live_order_ids : List String) (now : Nat) : DB × Nat :=
  let missing_ids :=
    (db.orders.filter (resolve_sel uid live_order_ids)).map Order.polymarket_order_id
  if missing_ids.isEmpty then (db, 0)
  else
    ({ db with orders := updateWhere
                 (fun o => o.user_id == uid &&
                   missing_ids.contains o.polymarket_order_id)
                 (fun o =>
                   { o with status := "MATCHED", size_filled := o.size,
                            updated_at := now })
                 db.orders },
     missing_ids.length)

/-- The transformation of one raw CLOB live order into upsert data:
skipped without an id, market, or asset id. -/
def raw_to_order_data (titles : String → Option String) (raw : RawOrder) :
    Option OrderData :=
  if raw.id = "" then none
  else if raw.market = "" || raw.asset_id = "" then none
  else
    some { polymarket_order_id := raw.id, market_id := raw.market,
           token_id := raw.asset_id, side := strUpper raw.side,
           outcome := raw.outcome, order_type := strUpper raw.order_type,
           size := raw.original_size, price := raw.price,
           size_filled := raw.size_matched, status := _map_status raw.status,
           market_question := titles raw.asset_id,
           placed_at := raw.created_at }

/-- `OrderService.sync_orders` — the fetched raw live-order list is passed
in; `titles` stands for the token→market-question map assembled from the
user's positions plus the best-effort Gamma backfill.  Users without
credentials return early; an empty live list resolves every LIVE
non-STOP_LOSS order as MATCHED; otherwise valid rows are upserted and the
disappearance inference runs against the reported id set. -/
def sync_orders (db : DB) (user : User) (raw_orders : List RawOrder)
    (titles : String → Option String) (now : Nat) : DB × Nat :=
  if !user.has_polymarket_creds then (db, 0)
  else if user.encrypted_private_key.isNone then (db, 0)
  else if raw_orders.isEmpty then
    ((resolve_missing_live_orders db user.id [] now).1, 0)
  else
    let orders_data := raw_orders.filterMap (raw_to_order_data titles)
    let r := upsert_many_orders db user.id orders_data now
    let live_order_ids := orders_data.map OrderData.polymarket_order_id
    let db2 := (resolve_missing_live_orders r.1 user.id live_order_ids now).1
    (db2, r.2)

/-! ### Concrete fixtures

A small concrete world used to evaluate the theorems at explicit inputs:
one fully-credentialed user, one position holding 50 tokens of `tok1` at
average price 0.40 with a stop loss at 0.35, and its synthetic LIVE
stop-loss watch order `sl-1`.  (This is the spec's end-to-end scenario.) -/

def exUser : User :=
  { id := 0, wallet_address := "0xabc", proxy_wallet := some "0xproxy",
    encrypted_api_key := some "k", encrypted_api_secret := some "s",
    encrypted_passphrase := some "p", encrypted_private_key := some "pk" }

def exPos : Position :=
  { id := 1, user_id := 0, market_id := "m1", token_id := "tok1",
    outcome := "Yes", size := 50, avg_price := 2/5,
    current_price := some (33/100), realized_pnl := 0, synced_at := none,
    title := some "T?", slug := none, icon := none, redeemable := false,
    take_profit_price := none, stop_loss_price := some (7/20),
    tp_order_id := none, updated_at := 0 }

def exSL : Order :=
  { id := 2, user_id := 0, market_id := "m1", token_id := "tok1",
    polymarket_order_id := "sl-1", side := "SELL", outcome := "Yes",
    order_type := "STOP_LOSS", size := 50, price := 7/20, size_filled := 0,
    status := "LIVE", market_question := some "T?", position_id := some 1,
    placed_at := some 0, updated_at := 0 }

def exDB : DB := { users := [exUser], positions := [exPos], orders := [exSL], next_id := 10 }

/-- Gateway whose sell price 0.33 is below the stop loss and whose
submissions succeed. -/
def exGW : Gateway :=
  { get_price := fun _ _ => some (33/100),
    create_and_post_order := fun _ => .ok (.obj "ord-1"),
    cancel := fun _ => .ok () }

/-- Gateway whose sell price 0.36 is above the stop loss. -/
def exGWhi : Gateway :=
  { get_price := fun _ _ => some (36/100),
    create_and_post_order := fun _ => .ok (.obj "ord-1"),
    cancel := fun _ => .ok () }

/-- Gateway whose order submission fails. -/
def exGWfail : Gateway :=
  { get_price := fun _ _ => some (33/100),
    create_and_post_order := fun _ => .error "submission refused",
    cancel := fun _ => .ok () }

/-- The `sl-1` watch order already CANCELLED (as `remove_stop_loss` leaves
it), with the position's stop loss still unset. -/
def exSLc : Order := { exSL with status := "CANCELLED" }

/-- `exPos` with no stop loss configured and an integer entry price (the
concrete theorems evaluate price comparisons in the kernel, which cannot
normalize rational division). -/
def exPos4 : Position := { exPos with avg_price := 2, stop_loss_price := none }

def exDBc : DB :=
  { users := [exUser], positions := [exPos4], orders := [exSLc], next_id := 10 }

/-- A LIVE exchange (GTC) order for the order-sync claims. -/
def exOrdLive : Order :=
  { id := 3, user_id := 0, market_id := "m1", token_id := "tok1",
    polymarket_order_id := "0xorder1", side := "BUY", outcome := "Yes",
    order_type := "GTC", size := 20, price := 1/2, size_filled := 5,
    status := "LIVE", market_question := some "T?", position_id := none,
    placed_at := some 0, updated_at := 0 }

def exDBord : DB :=
  { users := [exUser], positions := [exPos], orders := [exSL, exOrdLive], next_id := 10 }

/-- A fully filled LIVE order (`size_filled = size`) for the edit claim. -/
def exOrdFilled : Order := { exOrdLive with id := 4, polymarket_order_id := "0xorder2", size_filled := 20 }

def exDBfilled : DB :=
  { users := [exUser], positions := [exPos], orders := [exOrdFilled], next_id := 10 }

/-- `StatusesOk l l'`: every order row of `l'` descends from a row of `l`
with the same primary key, and its status is either unchanged or one of the
terminal statuses.  This is the shape of every write the non-reopening
operations perform. -/
def StatusesOk (l l' : List Order) : Prop :=
  ∀ q ∈ l', ∃ r ∈ l, r.id = q.id ∧
    (q.status = r.status ∨ q.status = "MATCHED" ∨ q.status = "CANCELLED")

/-- `ImmEq q o`: the order rows `q` and `o` agree on the primary key and on
every field the order-sync upsert's conflict clause does **not** set —
i.e. everything except size, price, size_filled, status, market_question
and updated_at. -/
def ImmEq (q o : Order) : Prop :=
  q.id = o.id ∧ q.user_id = o.user_id ∧
  q.polymarket_order_id = o.polymarket_order_id ∧ q.market_id = o.market_id ∧
  q.token_id = o.token_id ∧ q.side = o.side ∧ q.outcome = o.outcome ∧
  q.order_type = o.order_type ∧ q.placed_at = o.placed_at ∧
  q.position_id = o.position_id

/-- Order-sync data hitting `exOrdLive`'s key with fresh mutable values. -/
def d8 : OrderData :=
  { polymarket_order_id := "0xorder1", market_id := "m1", token_id := "tok1",
    side := "SELL", outcome := "No", order_type := "LIMIT", size := 25,
    price := 3/5, size_filled := 10, status := "LIVE",
    market_question := some "T2?", placed_at := some 1 }

/-- `exOrdLive` after the conflict clause of an upsert of `d8` at time 9. -/
def exOrdUpd : Order :=
  { exOrdLive with size := d8.size, price := d8.price,
                   size_filled := d8.size_filled, status := d8.status,
                   market_question := d8.market_question, updated_at := 9 }

/-- A raw Data-API record reporting a different instrument (`tok2`). -/
def exRaw2 : RawPosition :=
  { asset := "tok2", conditionId := "m2", size := 10, avgPrice := 1/4,
    curPrice := 1/3, realizedPnl := 0, outcome := "No", title := none,
    eventSlug := none, slug := none, icon := none, redeemable := false }

/-- `exPos` after the zero-out pass at time 5. -/
def exPosZeroed : Position :=
  { exPos with size := 0, current_price := some 0, updated_at := 5 }

/-- The position row inserted for `exRaw2` at time 5 (fresh id 10). -/
def exInserted : Position :=
  { id := 10, user_id := 0, market_id := "m2", token_id := "tok2",
    outcome := "No", size := 10, avg_price := 1/4, current_price := some (1/3),
    realized_pnl := 0, synced_at := some 5, title := none, slug := none,
    icon := none, redeemable := false, take_profit_price := none,
    stop_loss_price := none, tp_order_id := none, updated_at := 5 }

/-- `exOrdLive` after the disappearance inference at time 7. -/
def exOrdMatched : Order :=
  { exOrdLive with status := "MATCHED", size_filled := 20, updated_at := 7 }

/-- Division-free stop-loss world for the sweep claims (integer prices, so
the kernel can evaluate every comparison): a position with a stop loss at 2
held by `exUser`, watched by the LIVE synthetic order `sl-11`. -/
def exPosC1 : Position :=
  { id := 11, user_id := 0, market_id := "mC", token_id := "tokC",
    outcome := "Yes", size := 50, avg_price := 2,
    current_price := some 1, realized_pnl := 0, synced_at := none,
    title := none, slug := none, icon := none, redeemable := false,
    take_profit_price := none, stop_loss_price := some 2,
    tp_order_id := none, updated_at := 0 }

def exSLC1 : Order :=
  { id := 12, user_id := 0, market_id := "mC", token_id := "tokC",
    polymarket_order_id := "sl-11", side := "SELL", outcome := "Yes",
    order_type := "STOP_LOSS", size := 50, price := 2, size_filled := 0,
    status := "LIVE", market_question := none, position_id := some 11,
    placed_at := some 0, updated_at := 0 }

def exDBC1 : DB :=
  { users := [exUser], positions := [exPosC1], orders := [exSLC1], next_id := 20 }

/-- Gateway with integer sell price 1 (at or below the stop loss);
submissions succeed. -/
def exGWC1 : Gateway :=
  { get_price := fun _ _ => some 1,
    create_and_post_order := fun _ => .ok (.obj "ord-c1"),
    cancel := fun _ => .ok () }

/-- Two stop-loss positions in one sweep: the exchange refuses the sell for
`tokP` but accepts the one for `tokQ`. -/
def exPosP : Position := { exPosC1 with id := 21, token_id := "tokP" }

def exPosQ : Position :=
  { exPosC1 with id := 22, token_id := "tokQ", size := 40,
                 stop_loss_price := some 3 }

def exSLP : Order :=
  { exSLC1 with id := 23, token_id := "tokP",
                polymarket_order_id := "sl-21", position_id := some 21 }

def exSLQ : Order :=
  { exSLC1 with id := 24, token_id := "tokQ", size := 40,
                polymarket_order_id := "sl-22", position_id := some 22 }

def exDBC6 : DB :=
  { users := [exUser], positions := [exPosP, exPosQ],
    orders := [exSLP, exSLQ], next_id := 30 }

def exGWC6 : Gateway :=
  { get_price := fun _ _ => some 1,
    create_and_post_order := fun a =>
      if a.token_id = "tokP" then .error "exchange down"
      else .ok (.obj "ord-q"),
    cancel := fun _ => .ok () }

/-! ### General lemmas about the update combinators -/

theorem find?_updateWhere_disjoint {α : Type} {P Q : α → Bool} {f : α → α}
    (h : ∀ a, P a = true → Q a = false ∧ Q (f a) = false) :
    ∀ l : List α, (updateWhere P f l).find? Q = l.find? Q := by
  intro l
  induction l with
  | nil => rfl
  | cons a rest ih =>
    simp only [updateWhere, List.map_cons] at *
    cases hPa : P a with
    | true =>
      obtain ⟨h1, h2⟩ := h a hPa
      simp only [hPa, if_true, List.find?_cons, h1, h2, ih]
    | false =>
      rw [if_neg (by simp [hPa])]
      cases hQa : Q a with
      | true => simp [List.find?_cons, hQa]
      | false => simp [List.find?_cons, hQa, ih]

theorem find?_updateWhere_self {α : Type} {P : α → Bool} {f : α → α}
    (hf : ∀ b, P (f b) = P b) :
    ∀ {l : List α} {a : α}, l.find? P = some a →
      (updateWhere P f l).find? P = some (f a) := by
  intro l
  induction l with
  | nil => intro a h; simp [List.find?] at h
  | cons b rest ih =>
    intro a h
    simp only [updateWhere, List.map_cons]
    cases hPb : P b with
    | true =>
      rw [List.find?_cons_of_pos _ hPb] at h
      injection h with h; subst h
      simp only [hPb, if_true]
      exact List.find?_cons_of_pos _ (by rw [hf]; exact hPb)
    | false =>
      rw [List.find?_cons_of_neg _ (by simp [hPb])] at h
      rw [if_neg (by simp [hPb])]
      rw [List.find?_cons_of_neg _ (by simp [hPb])]
      exact ih h

theorem find?_updateFirst_disjoint {α : Type} {P Q : α → Bool} {f : α → α}
    (h : ∀ a, P a = true → Q a = false ∧ Q (f a) = false) :
    ∀ l : List α, (updateFirst P f l).find? Q = l.find? Q := by
  intro l
  induction l with
  | nil => rfl
  | cons a rest ih =>
    simp only [updateFirst]
    cases hPa : P a with
    | true =>
      obtain ⟨h1, h2⟩ := h a hPa
      simp [List.find?_cons, h1, h2]
    | false =>
      cases hQa : Q a with
      | true => simp [List.find?_cons, hQa, hPa]
      | false => simp [List.find?_cons, hQa, hPa, ih]

theorem find?_updateFirst_self {α : Type} {P : α → Bool} {f : α → α}
    (hf : ∀ b, P (f b) = P b) :
    ∀ {l : List α} {a : α}, l.find? P = some a →
      (updateFirst P f l).find? P = some (f a) := by
  intro l
  induction l with
  | nil => intro a h; simp [List.find?] at h
  | cons b rest ih =>
    intro a h
    simp only [updateFirst]
    cases hPb : P b with
    | true =>
      rw [List.find?_cons_of_pos _ hPb] at h
      injection h with h; subst h
      simp only [hPb, if_true]
      exact List.find?_cons_of_pos _ (by rw [hf]; exact hPb)
    | false =>
      rw [List.find?_cons_of_neg _ (by simp [hPb])] at h
      rw [if_neg (by simp [hPb])]
      rw [List.find?_cons_of_neg _ (by simp [hPb])]
      exact ih h

theorem updateWhere_map_eq {α β : Type} {P : α → Bool} {f : α → α} {g : α → β}
    (hf : ∀ a, g (f a) = g a) :
    ∀ l : List α, (updateWhere P f l).map g = l.map g := by
  intro l
  induction l with
  | nil => rfl
  | cons a rest ih =>
    simp only [updateWhere, List.map_cons] at *
    cases hPa : P a <;> simp [hPa, hf, ih]

theorem updateFirst_map_eq {α β : Type} {P : α → Bool} {f : α → α} {g : α → β}
    (hf : ∀ a, g (f a) = g a) :
    ∀ l : List α, (updateFirst P f l).map g = l.map g := by
  intro l
  induction l with
  | nil => rfl
  | cons a rest ih =>
    simp only [updateFirst]
    cases hPa : P a <;> simp [hPa, hf, ih]

/-- A `find?` under a key whose values are `Nodup` returns the member itself. -/
theorem find?_of_nodup_key {α β : Type} [BEq β] [LawfulBEq β] {key : α → β} :
    ∀ {l : List α}, (l.map key).Nodup → ∀ {a : α}, a ∈ l →
      l.find? (fun x => key x == key a) = some a := by
  intro l
  induction l with
  | nil => intro _ a ha; cases ha
  | cons b rest ih =>
    intro hn a ha
    rw [List.map_cons, List.nodup_cons] at hn
    rcases List.mem_cons.mp ha with rfl | ha'
    · exact List.find?_cons_of_pos _ (by simp)
    · have hne : key b ≠ key a := by
        intro he
        exact hn.1 (he ▸ List.mem_map_of_mem key ha')
      rw [List.find?_cons_of_neg _ (by simp [hne])]
      exact ih hn.2 ha'

/-- Strengthening the predicate of a successful `find?`: if `Q` implies `P`
pointwise and the found element satisfies `Q`, then `find?` with `Q` finds
the same element. -/
theorem find?_of_stronger_pred {α : Type} {P Q : α → Bool}
    (hPQ : ∀ b, Q b = true → P b = true) :
    ∀ {l : List α} {a : α}, l.find? P = some a → Q a = true →
      l.find? Q = some a := by
  intro l
  induction l with
  | nil => intro a h; simp [List.find?] at h
  | cons b rest ih =>
    intro a h hQa
    cases hPb : P b with
    | true =>
      rw [List.find?_cons_of_pos _ hPb] at h
      injection h with h; subst h
      exact List.find?_cons_of_pos _ hQa
    | false =>
      rw [List.find?_cons_of_neg _ (by simp [hPb])] at h
      have hQb : Q b = false := by
        cases hQb : Q b with
        | true => rw [hPQ b hQb] at hPb; cases hPb
        | false => rfl
      rw [List.find?_cons_of_neg _ (by simp [hQb])]
      exact ih h hQa

/-- Every element of `updateWhere P f l` is an element of `l` or the image
under `f` of an element of `l` satisfying `P`. -/
theorem mem_updateWhere {α : Type} {P : α → Bool} {f : α → α} {l : List α}
    {q : α} (hq : q ∈ updateWhere P f l) :
    ∃ r ∈ l, (P r = false ∧ q = r) ∨ (P r = true ∧ q = f r) := by
  obtain ⟨r, hr, hqr⟩ := List.mem_map.mp hq
  refine ⟨r, hr, ?_⟩
  by_cases hPr : P r = true
  · right; exact ⟨hPr, by simp [hPr] at hqr; exact hqr.symm⟩
  · left
    simp only [Bool.not_eq_true] at hPr
    exact ⟨hPr, by simp [hPr] at hqr; exact hqr.symm⟩

/-- An element not satisfying `P` passes through `updateWhere` unchanged. -/
theorem mem_updateWhere_of_neg {α : Type} {P : α → Bool} {f : α → α} :
    ∀ {l : List α} {a : α}, a ∈ l → P a = false → a ∈ updateWhere P f l := by
  intro l
  induction l with
  | nil => intro a ha _; cases ha
  | cons b rest ih =>
    intro a ha hPa
    simp only [updateWhere, List.map_cons]
    rcases List.mem_cons.mp ha with rfl | ha'
    · rw [if_neg (by simp [hPa])]
      exact List.mem_cons_self _ _
    · exact List.mem_cons_of_mem _ (ih ha' hPa)

/-- Every element of `updateFirst P f l` is an element of `l` or the image
under `f` of an element of `l` satisfying `P`. -/
theorem mem_updateFirst {α : Type} {P : α → Bool} {f : α → α} :
    ∀ {l : List α} {q : α}, q ∈ updateFirst P f l →
      ∃ r ∈ l, q = r ∨ (P r = true ∧ q = f r) := by
  intro l
  induction l with
  | nil => intro q hq; cases hq
  | cons a rest ih =>
    intro q hq
    simp only [updateFirst] at hq
    cases hPa : P a with
    | true =>
      rw [hPa, if_pos rfl] at hq
      rcases List.mem_cons.mp hq with rfl | hq'
      · exact ⟨a, List.mem_cons_self a rest, Or.inr ⟨hPa, rfl⟩⟩
      · exact ⟨q, List.mem_cons_of_mem a hq', Or.inl rfl⟩
    | false =>
      rw [hPa, if_neg (by simp)] at hq
      rcases List.mem_cons.mp hq with rfl | hq'
      · exact ⟨q, List.mem_cons_self q rest, Or.inl rfl⟩
      · obtain ⟨r, hr, hc⟩ := ih hq'
        exact ⟨r, List.mem_cons_of_mem a hr, hc⟩

/-! ### Claim C9 — status normalization -/

/-- C9, counterexample: the claim says unrecognized values are returned
*unchanged*, but `_map_status` upper-cases its argument before the table
lookup, so the unrecognized value `"pending"` comes back as `"PENDING"`. -/
theorem c9_counterexample :
    _map_status "pending" = "PENDING" ∧ "PENDING" ≠ "pending" := by
  constructor
  · rfl
  · decide

/-- C9, amended: `_map_status` maps its input case-insensitively through the
fixed table (OPEN and ACTIVE to LIVE, FILLED and CLOSED to MATCHED,
CANCELED and EXPIRED to CANCELLED, identity on the three canonical
statuses), and returns every unrecognized value upper-cased (unchanged only
up to letter case). -/
theorem c9_map_status :
    (∀ s : String,
      strUpper s ∉ (["LIVE", "OPEN", "ACTIVE", "MATCHED", "FILLED", "CLOSED",
        "CANCELLED", "CANCELED", "EXPIRED"] : List String) →
      _map_status s = strUpper s) ∧
    _map_status "LIVE" = "LIVE" ∧ _map_status "OPEN" = "LIVE" ∧
    _map_status "ACTIVE" = "LIVE" ∧ _map_status "MATCHED" = "MATCHED" ∧
    _map_status "FILLED" = "MATCHED" ∧ _map_status "CLOSED" = "MATCHED" ∧
    _map_status "CANCELLED" = "CANCELLED" ∧
    _map_status "CANCELED" = "CANCELLED" ∧ _map_status "EXPIRED" = "CANCELLED" := by
  refine ⟨?_, rfl, rfl, rfl, rfl, rfl, rfl, rfl, rfl, rfl⟩
  intro s h
  simp only [List.mem_cons, List.not_mem_nil, or_false, not_or] at h
  obtain ⟨h1, h2, h3, h4, h5, h6, h7, h8, h9⟩ := h
  simp [_map_status, h1, h2, h3, h4, h5, h6, h7, h8, h9]

/-- C9 witness: the amended theorem applied to the unrecognized status
`"pending"`. -/
theorem c9_map_status_witness : _map_status "pending" = strUpper "pending" :=
  c9_map_status.1 "pending" (by decide)

/-! ### Claim C5 — the sell executor (`market_sell`) -/

/-- C5: `market_sell` rejects with a validation error and submits nothing
when the position is empty or the sell-side price is unavailable or ≤ 0;
otherwise (with a valid trading client) it submits exactly one SELL order
for the full position size at the price rounded to two decimals, propagates
any gateway submission failure unchanged, and on success returns a
human-readable message with the order id extracted from the response. -/
theorem c5_market_sell (gw : Gateway) (db : DB) (user : User)
    (position_id : Nat) (position : Position)
    (hpos : _get_position db user position_id = .ok position) :
    (position.size ≤ 0 →
      market_sell gw db user position_id =
        (.error "Position has no tokens to sell", [])) ∧
    (0 < position.size → gw.get_price position.token_id "sell" = none →
      market_sell gw db user position_id =
        (.error "Cannot determine market price. No bids available.", [])) ∧
    (∀ bid : ℚ, 0 < position.size →
      gw.get_price position.token_id "sell" = some bid → bid ≤ 0 →
      market_sell gw db user position_id =
        (.error "Cannot determine market price. No bids available.", [])) ∧
    (∀ bid : ℚ, 0 < position.size →
      gw.get_price position.token_id "sell" = some bid → 0 < bid →
      _get_clob_client user = .ok () →
      (market_sell gw db user position_id).2 =
        [{ token_id := position.token_id, price := round2 bid,
           size := position.size, side := "SELL" }] ∧
      (∀ e, gw.create_and_post_order
          { token_id := position.token_id, price := round2 bid,
            size := position.size, side := "SELL" } = .error e →
        (market_sell gw db user position_id).1 = .error e) ∧
      (∀ r, gw.create_and_post_order
          { token_id := position.token_id, price := round2 bid,
            size := position.size, side := "SELL" } = .ok r →
        (market_sell gw db user position_id).1 =
          .ok { message := "Market sell order placed for " ++
                  toString position.size ++ " tokens at " ++ toString bid,
                order_id := some (extract_order_id r) })) := by
  refine ⟨?_, ?_, ?_, ?_⟩
  · intro h
    simp only [market_sell, hpos]
    rw [if_pos h]
  · intro hsz hnone
    simp only [market_sell, hpos]
    rw [if_neg (not_le.mpr hsz), hnone]
  · intro bid hsz hsome hle
    simp only [market_sell, hpos]
    rw [if_neg (not_le.mpr hsz), hsome]
    simp only [if_pos hle]
  · intro bid hsz hsome hpos' hcreds
    have hns : ¬ position.size ≤ 0 := not_le.mpr hsz
    have hnb : ¬ bid ≤ 0 := not_le.mpr hpos'
    simp only [market_sell, hpos, hsome, hcreds, if_neg hns, if_neg hnb]
    refine ⟨?_, ?_, ?_⟩
    · cases hc : gw.create_and_post_order
        { token_id := position.token_id, price := round2 bid,
          size := position.size, side := "SELL" } <;> simp [hc]
    · intro e he; simp [he]
    · intro r hr; simp [hr]

/-- C5 witness: the main theorem applied to the concrete fixture world
(price 0.33, submission succeeding with object id `ord-1`). -/
theorem c5_market_sell_witness :
    (market_sell exGW exDB exUser 1).2 =
      [{ token_id := "tok1", price := round2 (33/100), size := 50, side := "SELL" }] ∧
    (market_sell exGW exDB exUser 1).1 =
      .ok { message := "Market sell order placed for " ++ toString (50 : ℚ) ++
              " tokens at " ++ toString ((33 : ℚ)/100),
            order_id := some "ord-1" } := by
  have h := (c5_market_sell exGW exDB exUser 1 exPos rfl).2.2.2 (33/100)
    (by norm_num [exPos]) rfl (by norm_num) rfl
  exact ⟨h.1, h.2.2 (.obj "ord-1") rfl⟩

/-! ### Claim C7 — `set_take_profit` ordering and atomicity -/

/-- C7: for a valid take-profit request, `set_take_profit` first attempts a
best-effort cancel of any prior TP order (exactly the stored `tp_order_id`,
and nothing otherwise; the cancel outcome never influences the result —
captured by the last conjunct's independence from `Gateway.cancel`), then
places the new GTC sell limit; `take_profit_price`/`tp_order_id` are
written only after successful placement, and on a placement failure the
database is returned unchanged. -/
theorem c7_set_take_profit (gw : Gateway) (db : DB) (user : User)
    (position_id : Nat) (price : ℚ) (position : Position)
    (hpos : _get_position db user position_id = .ok position)
    (hsz : 0 < position.size) (hpr : position.avg_price < price)
    (hcreds : _get_clob_client user = .ok ()) :
    ((set_take_profit gw db user position_id price).2.2 =
      (match position.tp_order_id with | some t => [t] | none => [])) ∧
    (∀ e, gw.create_and_post_order
        { token_id := position.token_id, price := round2 price,
          size := position.size, side := "SELL" } = .error e →
      (set_take_profit gw db user position_id price).1 = .error e ∧
      (set_take_profit gw db user position_id price).2.1 = db) ∧
    (∀ r, gw.create_and_post_order
        { token_id := position.token_id, price := round2 price,
          size := position.size, side := "SELL" } = .ok r →
      (set_take_profit gw db user position_id price).1 =
        .ok { message := "Take profit set at " ++ toString price,
              order_id := some (extract_order_id r) } ∧
      (set_take_profit gw db user position_id price).2.1 =
        db.updatePosition position.id (fun p =>
          { p with take_profit_price := some price,
                   tp_order_id := some (extract_order_id r) })) ∧
    (∀ gw' : Gateway,
      gw'.create_and_post_order = gw.create_and_post_order →
      set_take_profit gw' db user position_id price =
        set_take_profit gw db user position_id price) := by
  have hns : ¬ position.size ≤ 0 := not_le.mpr hsz
  have hnp : ¬ price ≤ position.avg_price := not_le.mpr hpr
  refine ⟨?_, ?_, ?_, ?_⟩
  · simp only [set_take_profit, hpos, if_neg hns, if_neg hnp, hcreds]
    cases htp : position.tp_order_id <;>
      cases hc : gw.create_and_post_order
        { token_id := position.token_id, price := round2 price,
          size := position.size, side := "SELL" } <;> simp [hc]
  · intro e he
    simp only [set_take_profit, hpos, if_neg hns, if_neg hnp, hcreds, he]
    cases htp : position.tp_order_id <;> simp
  · intro r hr
    simp only [set_take_profit, hpos, if_neg hns, if_neg hnp, hcreds, hr]
    cases htp : position.tp_order_id <;> simp
  · intro gw' hgw
    simp only [set_take_profit, hpos, if_neg hns, if_neg hnp, hcreds, hgw]

/-- C7 witness: placement failure at the concrete fixture leaves the
database untouched; placement success writes the TP fields. -/
theorem c7_set_take_profit_witness :
    (set_take_profit exGWfail exDB exUser 1 (1/2)).2.1 = exDB ∧
    (set_take_profit exGW exDB exUser 1 (1/2)).2.1 =
      exDB.updatePosition 1 (fun p =>
        { p with take_profit_price := some (1/2), tp_order_id := some "ord-1" }) := by
  have hf := (c7_set_take_profit exGWfail exDB exUser 1 (1/2) exPos rfl
    (by norm_num [exPos]) (by norm_num [exPos]) rfl).2.1 "submission refused" rfl
  have hs := ((c7_set_take_profit exGW exDB exUser 1 (1/2) exPos rfl
    (by norm_num [exPos]) (by norm_num [exPos]) rfl).2.2.1 (.obj "ord-1") rfl).2
  exact ⟨hf.2, by simpa [exPos] using hs⟩

/-! ### Claim C10 — `edit_order` on a fully filled order -/

/-- C10: for a LIVE non-STOP_LOSS order with `size_filled ≥ size`, after a
successful exchange cancel, `edit_order` commits `status = MATCHED`, then
fails with "Order already fully filled" without submitting a replacement:
the error path durably mutates the order, which ends MATCHED even though it
was just cancelled on the exchange. -/
theorem c10_edit_order_fully_filled (gw : Gateway) (db : DB) (user : User)
    (order_id : Nat) (new_price : ℚ) (order : Order)
    (hord : get_order_by_id db order_id user.id = some order)
    (hlive : order.status = "LIVE") (htype : order.order_type ≠ "STOP_LOSS")
    (hcreds : _get_clob_client user = .ok ())
    (hcancel : gw.cancel order.polymarket_order_id = .ok ())
    (hfilled : order.size ≤ order.size_filled) :
    edit_order gw db user order_id new_price =
      (.error "Order already fully filled",
       db.updateOrderById order.id (fun o => { o with status := "MATCHED" }),
       []) ∧
    ((db.orders.map Order.id).Nodup →
      ∀ q ∈ (edit_order gw db user order_id new_price).2.1.orders,
        q.id = order.id → q.status = "MATCHED") := by
  have hrem : order.size - order.size_filled ≤ 0 := by linarith
  have hmain : edit_order gw db user order_id new_price =
      (.error "Order already fully filled",
       db.updateOrderById order.id (fun o => { o with status := "MATCHED" }),
       []) := by
    simp only [edit_order, hord, hlive, hcreds, hcancel]
    rw [if_neg (by simp), if_neg (by simpa using htype), if_pos hrem]
  refine ⟨hmain, ?_⟩
  intro hnodup q hq hid
  rw [hmain] at hq
  simp only [DB.updateOrderById] at hq
  obtain ⟨r, hr, hc⟩ := mem_updateWhere hq
  have horder_mem : order ∈ db.orders := by
    have := List.mem_of_find?_eq_some hord
    exact this
  rcases hc with ⟨hP, rfl⟩ | ⟨hP, rfl⟩
  · simp [hid] at hP
  · rfl

/-- C10 witness: the concrete fully-filled order fixture. -/
theorem c10_edit_order_fully_filled_witness :
    edit_order exGW exDBfilled exUser 4 (3/5) =
      (.error "Order already fully filled",
       exDBfilled.updateOrderById 4 (fun o => { o with status := "MATCHED" }),
       []) :=
  (c10_edit_order_fully_filled exGW exDBfilled exUser 4 (3/5) exOrdFilled
    rfl rfl (by decide) rfl rfl (by norm_num [exOrdFilled, exOrdLive])).1

/-! ### Claim C8 — order upsert frame -/

theorem upsert_order_row_imm {uid now : Nat} {d : OrderData} {db : DB} {o : Order}
    (h1 : ∀ q ∈ db.orders, q.id = o.id → ImmEq q o) (h2 : o.id < db.next_id) :
    (∀ q ∈ (upsert_order_row uid now db d).orders, q.id = o.id → ImmEq q o) ∧
    o.id < (upsert_order_row uid now db d).next_id := by
  simp only [upsert_order_row]
  cases hany : db.orders.any (fun r =>
      r.user_id == uid && r.polymarket_order_id == d.polymarket_order_id) with
  | true =>
    rw [if_pos (by simp [hany])]
    refine ⟨?_, h2⟩
    intro q hq hid
    obtain ⟨r, hr, hc⟩ := mem_updateWhere hq
    rcases hc with ⟨_, rfl⟩ | ⟨_, rfl⟩
    · exact h1 q hr hid
    · have himm : ImmEq r o := h1 r hr hid
      exact ⟨himm.1, himm.2.1, himm.2.2.1, himm.2.2.2.1, himm.2.2.2.2.1,
        himm.2.2.2.2.2.1, himm.2.2.2.2.2.2.1, himm.2.2.2.2.2.2.2.1,
        himm.2.2.2.2.2.2.2.2.1, himm.2.2.2.2.2.2.2.2.2⟩
  | false =>
    rw [if_neg (by simp [hany])]
    refine ⟨?_, Nat.lt_succ_of_lt h2⟩
    intro q hq hid
    rcases List.mem_append.mp hq with hq' | hq'
    · exact h1 q hq' hid
    · rw [List.mem_singleton] at hq'
      subst hq'
      exact absurd hid (by simp; omega)

theorem upsert_fold_imm (uid now : Nat) (o : Order) :
    ∀ (rows : List OrderData) (db : DB),
      (∀ q ∈ db.orders, q.id = o.id → ImmEq q o) → o.id < db.next_id →
      (∀ q ∈ (rows.foldl (upsert_order_row uid now) db).orders,
        q.id = o.id → ImmEq q o) ∧
      o.id < (rows.foldl (upsert_order_row uid now) db).next_id := by
  intro rows
  induction rows with
  | nil => intro db h1 h2; exact ⟨h1, h2⟩
  | cons d rest ih =>
    intro db h1 h2
    rw [List.foldl_cons]
    obtain ⟨h1', h2'⟩ := upsert_order_row_imm h1 h2
    exact ih _ h1' h2'

/-- C8: an order-sync upsert batch never modifies side, outcome, order_type,
placed_at (nor the keys, ids, or position back-reference) of an existing
row; and a single-row batch hitting an existing row's
(user, external_order_id) key rewrites exactly size, price, size_filled,
status, market_question and updated_at to the reported values, leaving
every other field at its creation-time value. -/
theorem c8_upsert_frame (db : DB) (uid now : Nat) (rows : List OrderData)
    (o : Order) (ho : o ∈ db.orders)
    (hnodup : (db.orders.map Order.id).Nodup)
    (hfresh : ∀ r ∈ db.orders, r.id < db.next_id) :
    (∀ q ∈ (upsert_many_orders db uid rows now).1.orders,
      q.id = o.id → ImmEq q o) ∧
    (∀ d : OrderData, rows = [d] → o.user_id = uid →
      o.polymarket_order_id = d.polymarket_order_id →
      ∀ q ∈ (upsert_many_orders db uid rows now).1.orders, q.id = o.id →
        q = { o with size := d.size, price := d.price,
                     size_filled := d.size_filled, status := d.status,
                     market_question := d.market_question,
                     updated_at := now }) := by
  have hinit : ∀ q ∈ db.orders, q.id = o.id → ImmEq q o := by
    intro q hq hid
    have : q = o := List.inj_on_of_nodup_map hnodup hq ho hid
    subst this
    exact ⟨rfl, rfl, rfl, rfl, rfl, rfl, rfl, rfl, rfl, rfl⟩
  constructor
  · simp only [upsert_many_orders]
    cases hrows : rows.isEmpty with
    | true => rw [if_pos (by simp [hrows])]; exact hinit
    | false =>
      rw [if_neg (by simp [hrows])]
      exact (upsert_fold_imm uid now o rows db hinit (hfresh o ho)).1
  · rintro d rfl hu hpm q hq hid
    have hany : db.orders.any (fun r =>
        r.user_id == uid && r.polymarket_order_id == d.polymarket_order_id) = true :=
      List.any_eq_true.mpr ⟨o, ho, by simp [hu, hpm]⟩
    have hstep : (upsert_many_orders db uid [d] now).1 =
        { db with orders := updateWhere
                    (fun r => r.user_id == uid &&
                      r.polymarket_order_id == d.polymarket_order_id)
                    (fun r =>
                      { r with size := d.size, price := d.price,
                               size_filled := d.size_filled, status := d.status,
                               market_question := d.market_question,
                               updated_at := now })
                    db.orders } := by
      simp only [upsert_many_orders, List.isEmpty_cons, Bool.false_eq_true,
        if_false, List.foldl_cons, List.foldl_nil, upsert_order_row]
      rw [if_pos (by simp [hany])]
    rw [hstep] at hq
    obtain ⟨r, hr, hc⟩ := mem_updateWhere hq
    rcases hc with ⟨hP, rfl⟩ | ⟨hP, rfl⟩
    · have : q = o := List.inj_on_of_nodup_map hnodup hr ho hid
      subst this
      rw [show (q.user_id == uid && q.polymarket_order_id ==
        d.polymarket_order_id) = true by simp [hu, hpm]] at hP
      cases hP
    · have hrid : r.id = o.id := hid
      have : r = o := List.inj_on_of_nodup_map hnodup hr ho hrid
      subst this
      rfl

/-- C8 witness: the conflict update applied to `exOrdLive` keeps its
immutable fields while rewriting the six mutable ones. -/
theorem c8_upsert_frame_witness :
    exOrdUpd ∈ (upsert_many_orders exDBord 0 [d8] 9).1.orders ∧
    exOrdUpd = { exOrdLive with size := d8.size, price := d8.price,
                                size_filled := d8.size_filled,
                                status := d8.status,
                                market_question := d8.market_question,
                                updated_at := 9 } := by
  have hmem : exOrdUpd ∈ (upsert_many_orders exDBord 0 [d8] 9).1.orders := by
    show exOrdUpd ∈ [exSL, exOrdUpd]
    exact List.mem_cons_of_mem _ (List.mem_singleton_self _)
  refine ⟨hmem, ?_⟩
  exact (c8_upsert_frame exDBord 0 9 [d8] exOrdLive
    (by simp [exDBord]) (by simp [exDBord, exSL, exOrdLive])
    (by simp [exDBord, exSL, exOrdLive])).2 d8 rfl rfl rfl exOrdUpd hmem rfl

/-! ### Claim C2 — zeroing of unreported positions -/

theorem upsert_position_row_key {uid now : Nat} {d : PositionData} {db : DB}
    {p : Position} (hd : d.token_id ≠ p.token_id)
    (hK : ∀ q ∈ db.positions, q.user_id = uid → q.token_id = p.token_id → q = p) :
    ∀ q ∈ (upsert_position_row uid now db d).positions,
      q.user_id = uid → q.token_id = p.token_id → q = p := by
  intro q hq hqu hqt
  simp only [upsert_position_row] at hq
  by_cases hany : (db.positions.any fun r =>
      r.user_id == uid && r.token_id == d.token_id) = true
  · rw [if_pos (by simp [hany])] at hq
    obtain ⟨r, hr, hc⟩ := mem_updateWhere hq
    rcases hc with ⟨_, rfl⟩ | ⟨hP, rfl⟩
    · exact hK q hr hqu hqt
    · exfalso
      simp only [Bool.and_eq_true, beq_iff_eq] at hP
      have h2 : r.token_id = p.token_id := hqt
      exact hd (hP.2.symm.trans h2)
  · rw [if_neg (by simpa using hany)] at hq
    rcases List.mem_append.mp hq with hq' | hq'
    · exact hK q hq' hqu hqt
    · rw [List.mem_singleton] at hq'
      subst hq'
      exact absurd hqt hd

theorem upsert_positions_fold_key (uid now : Nat) (p : Position) :
    ∀ (rows : List PositionData) (db : DB),
      (∀ d ∈ rows, d.token_id ≠ p.token_id) →
      (∀ q ∈ db.positions, q.user_id = uid → q.token_id = p.token_id → q = p) →
      ∀ q ∈ (rows.foldl (upsert_position_row uid now) db).positions,
        q.user_id = uid → q.token_id = p.token_id → q = p := by
  intro rows
  induction rows with
  | nil => intro db _ hK; exact hK
  | cons d rest ih =>
    intro db hd hK
    rw [List.foldl_cons]
    exact ih _ (fun d' hd' => hd d' (List.mem_cons_of_mem _ hd'))
      (upsert_position_row_key (hd d (List.mem_cons_self _ _)) hK)

theorem upsert_many_positions_key {uid now : Nat} {p : Position}
    {rows : List PositionData} {db : DB}
    (hd : ∀ d ∈ rows, d.token_id ≠ p.token_id)
    (hK : ∀ q ∈ db.positions, q.user_id = uid → q.token_id = p.token_id → q = p) :
    ∀ q ∈ (upsert_many_positions db uid rows now).1.positions,
      q.user_id = uid → q.token_id = p.token_id → q = p := by
  simp only [upsert_many_positions]
  cases hrows : rows.isEmpty with
  | true => rw [if_pos (by simp [hrows])]; exact hK
  | false =>
    rw [if_neg (by simp [hrows])]
    exact upsert_positions_fold_key uid now p rows db hd hK

/-- C2 (amended): provided the externally-reported list is non-empty (at
least one record carries an instrument id), every position of the syncing
user with `size > 0` whose instrument id is absent from the reported set is
zeroed: `size = 0` and `current_price = 0`.  (The unamended claim also
covered an empty reported list; `sync_positions` returns early in that
case — see the counterexample.) -/
theorem c2_sync_zeroes_missing (db : DB) (user : User)
    (raw_positions : List RawPosition) (now : Nat) (p : Position)
    (hp : p ∈ db.positions) (huser : p.user_id = user.id) (hsz : 0 < p.size)
    (hkeys : (db.positions.map (fun r => (r.user_id, r.token_id))).Nodup)
    (hnotin : ∀ raw ∈ raw_positions, raw.asset ≠ "" → raw.asset ≠ p.token_id)
    (hne : ∃ raw ∈ raw_positions, raw.asset ≠ "") :
    ∀ q ∈ (sync_positions db user raw_positions now).1.positions,
      q.user_id = user.id → q.token_id = p.token_id →
      q.size = 0 ∧ q.current_price = some 0 := by
  obtain ⟨raw0, hraw0, hasset0⟩ := hne
  have hlist : raw_positions.isEmpty = false := by
    cases raw_positions with
    | nil => cases hraw0
    | cons a l => rfl
  have hmem0 : raw0 ∈ raw_positions.filter (fun r => r.asset ≠ "") :=
    List.mem_filter.mpr ⟨hraw0, by simp [hasset0]⟩
  have hAmem : raw0.asset ∈ reported_token_ids raw_positions :=
    List.mem_map_of_mem _ hmem0
  have hA : (reported_token_ids raw_positions).isEmpty = false := by
    cases hAl : reported_token_ids raw_positions with
    | nil => rw [hAl] at hAmem; cases hAmem
    | cons a l => rfl
  have hnotmem : p.token_id ∉ reported_token_ids raw_positions := by
    intro hmem
    obtain ⟨raw, hrawf, hasset⟩ := List.mem_map.mp hmem
    have hfil := List.mem_filter.mp hrawf
    exact hnotin raw hfil.1 (by simpa using hfil.2) hasset
  have hdata : ∀ d ∈ raw_positions.filterMap raw_to_position_data,
      d.token_id ≠ p.token_id := by
    intro d hd
    obtain ⟨raw, hraw, hsome⟩ := List.mem_filterMap.mp hd
    simp only [raw_to_position_data] at hsome
    split at hsome
    · cases hsome
    · split at hsome
      · injection hsome with h
        subst h
        rename_i h1 _
        exact hnotin raw hraw h1
      · cases hsome
  have hK0 : ∀ q ∈ db.positions,
      q.user_id = user.id → q.token_id = p.token_id → q = p := by
    intro q hq hqu hqt
    exact List.inj_on_of_nodup_map hkeys hq hp (by simp [hqu, hqt, huser])
  have hK1 := @upsert_many_positions_key user.id now p
    (raw_positions.filterMap raw_to_position_data) db hdata hK0
  intro q hq hqu hqt
  simp only [sync_positions, hlist, hA, Bool.false_eq_true, if_false,
    zero_missing_positions] at hq
  obtain ⟨r, hr, hc⟩ := mem_updateWhere hq
  rcases hc with ⟨hP, rfl⟩ | ⟨hP, rfl⟩
  · exfalso
    have hrp : q = p := hK1 q hr hqu hqt
    subst hrp
    rw [show (q.user_id == user.id && decide (q.size > 0) &&
      !(reported_token_ids raw_positions).contains q.token_id) = true by
        simp [huser, hnotmem, hqt, hsz]] at hP
    cases hP
  · exact ⟨rfl, rfl⟩

/-- C2 counterexample: with a prior position of size 50 and an *empty*
externally-reported list, `sync_positions` returns early and the position
keeps its size — it is not zeroed, although its instrument id is absent
from the (empty) reported set. -/
theorem c2_counterexample :
    (sync_positions exDB exUser [] 5).1 = exDB ∧ exPos ∈ exDB.positions ∧
    exPos.size = 50 ∧ exPos.token_id ∉ reported_token_ids [] := by
  refine ⟨rfl, ?_, rfl, ?_⟩
  · simp [exDB]
  · simp [reported_token_ids]

/-- C2 witness: syncing `[exRaw2]` (reporting only `tok2`) zeroes the
`tok1` position. -/
theorem c2_sync_zeroes_missing_witness :
    exPosZeroed ∈ (sync_positions exDB exUser [exRaw2] 5).1.positions ∧
    exPosZeroed.size = 0 ∧ exPosZeroed.current_price = some 0 := by
  have hmem : exPosZeroed ∈ (sync_positions exDB exUser [exRaw2] 5).1.positions := by
    show exPosZeroed ∈ [exPosZeroed, exInserted]
    exact List.mem_cons_self _ _
  refine ⟨hmem, ?_⟩
  exact c2_sync_zeroes_missing exDB exUser [exRaw2] 5 exPos
    (by simp [exDB]) rfl (by norm_num [exPos])
    (by simp [exDB, exPos, exUser])
    (by intro raw hraw _h
        rw [List.mem_singleton] at hraw
        subst hraw
        decide)
    ⟨exRaw2, List.mem_singleton_self _, by decide⟩
    exPosZeroed hmem rfl rfl

/-! ### Claim C3 — disappearance inference for live orders -/

theorem upsert_order_row_key {uid now : Nat} {d : OrderData} {db : DB}
    {o : Order} (hd : d.polymarket_order_id ≠ o.polymarket_order_id)
    (hK : ∀ q ∈ db.orders, q.user_id = uid →
      q.polymarket_order_id = o.polymarket_order_id → q = o)
    (ho : o ∈ db.orders) :
    (∀ q ∈ (upsert_order_row uid now db d).orders, q.user_id = uid →
      q.polymarket_order_id = o.polymarket_order_id → q = o) ∧
    o ∈ (upsert_order_row uid now db d).orders := by
  simp only [upsert_order_row]
  by_cases hany : (db.orders.any fun r =>
      r.user_id == uid && r.polymarket_order_id == d.polymarket_order_id) = true
  · rw [if_pos (by simp [hany])]
    constructor
    · intro q hq hqu hqt
      obtain ⟨r, hr, hc⟩ := mem_updateWhere hq
      rcases hc with ⟨_, rfl⟩ | ⟨hP, rfl⟩
      · exact hK q hr hqu hqt
      · exfalso
        simp only [Bool.and_eq_true, beq_iff_eq] at hP
        have h2 : r.polymarket_order_id = o.polymarket_order_id := hqt
        exact hd (hP.2.symm.trans h2)
    · have hne' : o.polymarket_order_id ≠ d.polymarket_order_id :=
        fun h => hd h.symm
      have hPo : (o.user_id == uid &&
          o.polymarket_order_id == d.polymarket_order_id) = false := by
        simp [hne']
      exact mem_updateWhere_of_neg ho hPo
  · rw [if_neg (by simpa using hany)]
    constructor
    · intro q hq hqu hqt
      rcases List.mem_append.mp hq with hq' | hq'
      · exact hK q hq' hqu hqt
      · rw [List.mem_singleton] at hq'
        subst hq'
        exact absurd hqt hd
    · exact List.mem_append_left _ ho

theorem upsert_orders_fold_key (uid now : Nat) (o : Order) :
    ∀ (rows : List OrderData) (db : DB),
      (∀ d ∈ rows, d.polymarket_order_id ≠ o.polymarket_order_id) →
      (∀ q ∈ db.orders, q.user_id = uid →
        q.polymarket_order_id = o.polymarket_order_id → q = o) →
      o ∈ db.orders →
      (∀ q ∈ (rows.foldl (upsert_order_row uid now) db).orders,
        q.user_id = uid → q.polymarket_order_id = o.polymarket_order_id → q = o) ∧
      o ∈ (rows.foldl (upsert_order_row uid now) db).orders := by
  intro rows
  induction rows with
  | nil => intro db _ hK ho; exact ⟨hK, ho⟩
  | cons d rest ih =>
    intro db hd hK ho
    rw [List.foldl_cons]
    obtain ⟨hK', ho'⟩ :=
      upsert_order_row_key (hd d (List.mem_cons_self _ _)) hK ho
    exact ih _ (fun d' hd' => hd d' (List.mem_cons_of_mem _ hd')) hK' ho'

theorem upsert_many_orders_key {uid now : Nat} {o : Order}
    {rows : List OrderData} {db : DB}
    (hd : ∀ d ∈ rows, d.polymarket_order_id ≠ o.polymarket_order_id)
    (hK : ∀ q ∈ db.orders, q.user_id = uid →
      q.polymarket_order_id = o.polymarket_order_id → q = o)
    (ho : o ∈ db.orders) :
    (∀ q ∈ (upsert_many_orders db uid rows now).1.orders, q.user_id = uid →
      q.polymarket_order_id = o.polymarket_order_id → q = o) ∧
    o ∈ (upsert_many_orders db uid rows now).1.orders := by
  simp only [upsert_many_orders]
  cases hrows : rows.isEmpty with
  | true => rw [if_pos (by simp [hrows])]; exact ⟨hK, ho⟩
  | false =>
    rw [if_neg (by simp [hrows])]
    exact upsert_orders_fold_key uid now o rows db hd hK ho

/-- The core of the disappearance inference: a LIVE non-STOP_LOSS order of
the user whose id is outside the reported live set ends MATCHED with
`size_filled = size` after `resolve_missing_live_orders`. -/
theorem resolve_marks_missing {db : DB} {uid : Nat} {ids : List String}
    {now : Nat} {o : Order} (ho : o ∈ db.orders) (houser : o.user_id = uid)
    (hlive : o.status = "LIVE") (htype : o.order_type ≠ "STOP_LOSS")
    (hids : o.polymarket_order_id ∉ ids)
    (hK : ∀ q ∈ db.orders, q.user_id = uid →
      q.polymarket_order_id = o.polymarket_order_id → q = o) :
    ∀ q ∈ (resolve_missing_live_orders db uid ids now).1.orders,
      q.user_id = uid → q.polymarket_order_id = o.polymarket_order_id →
      q.status = "MATCHED" ∧ q.size_filled = q.size := by
  intro q hq hqu hqt
  have hsel : resolve_sel uid ids o = true := by
    simp [resolve_sel, houser, hlive, htype, hids]
  have hmiss : o.polymarket_order_id ∈
      (db.orders.filter (resolve_sel uid ids)).map Order.polymarket_order_id :=
    List.mem_map_of_mem _ (List.mem_filter.mpr ⟨ho, hsel⟩)
  have hne : ((db.orders.filter (resolve_sel uid ids)).map
      Order.polymarket_order_id).isEmpty = false := by
    cases h : (db.orders.filter (resolve_sel uid ids)).map
        Order.polymarket_order_id with
    | nil => rw [h] at hmiss; cases hmiss
    | cons a l => rfl
  simp only [resolve_missing_live_orders, hne, Bool.false_eq_true,
    if_false] at hq
  obtain ⟨r, hr, hc⟩ := mem_updateWhere hq
  rcases hc with ⟨hP, rfl⟩ | ⟨hP, rfl⟩
  · exfalso
    have hqo : q = o := hK q hr hqu hqt
    subst hqo
    have h1 : (q.user_id == uid) = true := by simp [houser]
    have h2 : ((db.orders.filter (resolve_sel uid ids)).map
        Order.polymarket_order_id).contains q.polymarket_order_id = true := by
      rw [hqt]
      exact List.elem_eq_true_of_mem hmiss
    rw [h1, h2] at hP
    simp at hP
  · exact ⟨rfl, rfl⟩

/-- C3: after an order sync with reported live set `raw_orders`, every LIVE
non-STOP_LOSS order of the (credentialled) user whose external id is absent
from the reported set is MATCHED with `size_filled = size` — including when
the reported list is empty; and the disappearance-inference path
(`resolve_missing_live_orders`) never touches a STOP_LOSS order: such a row
passes through it unchanged. -/
theorem c3_sync_resolves_missing (db : DB) (user : User)
    (raw_orders : List RawOrder) (titles : String → Option String) (now : Nat)
    (o : Order) (ho : o ∈ db.orders) (houser : o.user_id = user.id)
    (hlive : o.status = "LIVE") (htype : o.order_type ≠ "STOP_LOSS")
    (hkeys : (db.orders.map fun r =>
      (r.user_id, r.polymarket_order_id)).Nodup)
    (habsent : ∀ raw ∈ raw_orders, raw.id ≠ "" →
      raw.id ≠ o.polymarket_order_id)
    (hcreds : user.has_polymarket_creds = true)
    (hkey : user.encrypted_private_key.isSome = true) :
    (∀ q ∈ (sync_orders db user raw_orders titles now).1.orders,
      q.user_id = user.id →
      q.polymarket_order_id = o.polymarket_order_id →
      q.status = "MATCHED" ∧ q.size_filled = q.size) ∧
    (∀ (db' : DB) (uid : Nat) (ids : List String) (now' : Nat) (o' : Order),
      (db'.orders.map fun r => (r.user_id, r.polymarket_order_id)).Nodup →
      o' ∈ db'.orders → o'.order_type = "STOP_LOSS" →
      o' ∈ (resolve_missing_live_orders db' uid ids now').1.orders) := by
  have hK0 : ∀ q ∈ db.orders, q.user_id = user.id →
      q.polymarket_order_id = o.polymarket_order_id → q = o := by
    intro q hq hqu hqt
    exact List.inj_on_of_nodup_map hkeys hq ho (by simp [hqu, hqt, houser])
  have h1 : (!user.has_polymarket_creds) = false := by simp [hcreds]
  have h2 : user.encrypted_private_key.isNone = false := by
    obtain ⟨k, hk⟩ := Option.isSome_iff_exists.mp hkey
    rw [hk]; rfl
  constructor
  · have hdata : ∀ d ∈ raw_orders.filterMap (raw_to_order_data titles),
        d.polymarket_order_id ≠ o.polymarket_order_id := by
      intro d hd
      obtain ⟨raw, hraw, hsome⟩ := List.mem_filterMap.mp hd
      simp only [raw_to_order_data] at hsome
      split at hsome
      · cases hsome
      · split at hsome
        · cases hsome
        · injection hsome with h
          subst h
          rename_i hid _
          exact habsent raw hraw hid
    cases hror : raw_orders.isEmpty with
    | true =>
      have : raw_orders = [] := by
        cases raw_orders with
        | nil => rfl
        | cons a l => cases hror
      subst this
      intro q hq hqu hqt
      simp only [sync_orders, h1, h2, Bool.false_eq_true, if_false,
        List.isEmpty_nil, if_true] at hq
      exact resolve_marks_missing ho houser hlive htype
        (List.not_mem_nil _) hK0 q hq hqu hqt
    | false =>
      intro q hq hqu hqt
      simp only [sync_orders, h1, h2, hror, Bool.false_eq_true, if_false] at hq
      obtain ⟨hK1, ho1⟩ := @upsert_many_orders_key user.id now o
        (raw_orders.filterMap (raw_to_order_data titles)) db hdata hK0 ho
      have hnot : o.polymarket_order_id ∉
          (raw_orders.filterMap (raw_to_order_data titles)).map
            OrderData.polymarket_order_id := by
        intro hm
        obtain ⟨d, hdm, hdp⟩ := List.mem_map.mp hm
        exact hdata d hdm hdp
      exact resolve_marks_missing ho1 houser hlive htype hnot hK1 q hq hqu hqt
  · intro db' uid ids now' o' hkeys' ho' htype'
    simp only [resolve_missing_live_orders]
    cases hne : ((db'.orders.filter (resolve_sel uid ids)).map
        Order.polymarket_order_id).isEmpty with
    | true => rw [if_pos (by simp [hne])]; exact ho'
    | false =>
      rw [if_neg (by simp [hne])]
      have hPo : (o'.user_id == uid &&
          ((db'.orders.filter (resolve_sel uid ids)).map
            Order.polymarket_order_id).contains o'.polymarket_order_id) = false := by
        by_cases hu : o'.user_id = uid
        · have hcon : ((db'.orders.filter (resolve_sel uid ids)).map
              Order.polymarket_order_id).contains o'.polymarket_order_id = false := by
            by_contra hcc
            rw [Bool.not_eq_false] at hcc
            have hm := List.mem_of_elem_eq_true hcc
            obtain ⟨r, hrf, hrp⟩ := List.mem_map.mp hm
            have hfil := List.mem_filter.mp hrf
            have hru : r.user_id = uid := by
              have := hfil.2
              simp only [resolve_sel, Bool.and_eq_true, beq_iff_eq] at this
              exact this.1.1.1
            have hro : r = o' := List.inj_on_of_nodup_map hkeys' hfil.1 ho'
              (by simp [hru, hrp, hu])
            subst hro
            have := hfil.2
            simp [resolve_sel, htype'] at this
          rw [hcon]
          exact Bool.and_false _
        · simp [hu]
      exact mem_updateWhere_of_neg ho' hPo

/-- C3 witness: an order sync reporting no live orders marks the LIVE GTC
order `0xorder1` as MATCHED with `size_filled = size`, while the LIVE
synthetic STOP_LOSS order `sl-1` is untouched. -/
theorem c3_sync_resolves_missing_witness :
    exOrdMatched ∈ (sync_orders exDBord exUser [] (fun _ => none) 7).1.orders ∧
    exOrdMatched.status = "MATCHED" ∧
    exOrdMatched.size_filled = exOrdMatched.size ∧
    exSL ∈ (resolve_missing_live_orders exDBord 0 [] 7).1.orders := by
  have hmem : exOrdMatched ∈
      (sync_orders exDBord exUser [] (fun _ => none) 7).1.orders := by
    show exOrdMatched ∈ [exSL, exOrdMatched]
    exact List.mem_cons_of_mem _ (List.mem_singleton_self _)
  have h := c3_sync_resolves_missing exDBord exUser [] (fun _ => none) 7
    exOrdLive (by simp [exDBord]) rfl rfl (by decide) (by decide)
    (fun raw hraw => absurd hraw (List.not_mem_nil _)) rfl rfl
  have hsl := h.2 exDBord 0 [] 7 exSL (by decide) (by simp [exDBord]) rfl
  exact ⟨hmem, (h.1 exOrdMatched hmem rfl rfl).1, (h.1 exOrdMatched hmem rfl rfl).2, hsl⟩

/-! ### Claim C4 — terminal order statuses -/

theorem statusesOk_refl (l : List Order) : StatusesOk l l :=
  fun q hq => ⟨q, hq, rfl, Or.inl rfl⟩

theorem statusesOk_trans {l1 l2 l3 : List Order}
    (h12 : StatusesOk l1 l2) (h23 : StatusesOk l2 l3) : StatusesOk l1 l3 := by
  intro q hq
  obtain ⟨r, hr, hid, hst⟩ := h23 q hq
  obtain ⟨s, hs, hid', hst'⟩ := h12 r hr
  refine ⟨s, hs, hid'.trans hid, ?_⟩
  rcases hst with h | h | h
  · rcases hst' with h' | h' | h'
    · exact Or.inl (h.trans h')
    · exact Or.inr (Or.inl (h.trans h'))
    · exact Or.inr (Or.inr (h.trans h'))
  · exact Or.inr (Or.inl h)
  · exact Or.inr (Or.inr h)

theorem statusesOk_updateWhere {l : List Order} {P : Order → Bool}
    {f : Order → Order}
    (hf : ∀ a, (f a).id = a.id ∧ ((f a).status = a.status ∨
      (f a).status = "MATCHED" ∨ (f a).status = "CANCELLED")) :
    StatusesOk l (updateWhere P f l) := by
  intro q hq
  obtain ⟨r, hr, hc⟩ := mem_updateWhere hq
  rcases hc with ⟨_, rfl⟩ | ⟨_, rfl⟩
  · exact ⟨q, hr, rfl, Or.inl rfl⟩
  · exact ⟨r, hr, (hf r).1.symm, (hf r).2⟩

theorem statusesOk_updateFirst {l : List Order} {P : Order → Bool}
    {f : Order → Order}
    (hf : ∀ a, (f a).id = a.id ∧ ((f a).status = a.status ∨
      (f a).status = "MATCHED" ∨ (f a).status = "CANCELLED")) :
    StatusesOk l (updateFirst P f l) := by
  intro q hq
  obtain ⟨r, hr, hc⟩ := mem_updateFirst hq
  rcases hc with rfl | ⟨_, rfl⟩
  · exact ⟨q, hr, rfl, Or.inl rfl⟩
  · exact ⟨r, hr, (hf r).1.symm, (hf r).2⟩

theorem statusesOk_remove_stop_loss (db : DB) (user : User) (pid : Nat) :
    StatusesOk db.orders (remove_stop_loss db user pid).2.orders := by
  unfold remove_stop_loss
  repeat' (first | split | dsimp only)
  all_goals
    first
    | exact statusesOk_refl _
    | exact statusesOk_updateFirst (fun a => ⟨rfl, Or.inr (Or.inr rfl)⟩)

theorem statusesOk_cancel_order (gw : Gateway) (db : DB) (user : User)
    (oid : Nat) : StatusesOk db.orders (cancel_order gw db user oid).2.orders := by
  unfold cancel_order
  repeat' (first | split | dsimp only)
  all_goals
    first
    | exact statusesOk_refl _
    | exact statusesOk_updateWhere (fun a => ⟨rfl, Or.inr (Or.inr rfl)⟩)

theorem statusesOk_edit_order (gw : Gateway) (db : DB) (user : User)
    (oid : Nat) (price : ℚ) :
    StatusesOk db.orders (edit_order gw db user oid price).2.1.orders := by
  unfold edit_order
  repeat' (first | split | dsimp only)
  all_goals
    first
    | exact statusesOk_refl _
    | exact statusesOk_updateWhere (fun a => ⟨rfl, Or.inl rfl⟩)
    | exact statusesOk_updateWhere (fun a => ⟨rfl, Or.inr (Or.inl rfl)⟩)

theorem statusesOk_check_one (gw : Gateway) (db : DB) (pid : Nat) :
    StatusesOk db.orders (check_one_stop_loss gw db pid).1.orders := by
  unfold check_one_stop_loss
  repeat' (first | split | dsimp only)
  all_goals
    first
    | exact statusesOk_refl _
    | exact statusesOk_updateFirst (fun a => ⟨rfl, Or.inr (Or.inl rfl)⟩)

theorem statusesOk_sweep_fold (gw : Gateway) (db0 : DB) :
    ∀ (L : List Nat) (acc : DB × Nat × List Nat),
      StatusesOk db0.orders acc.1.orders →
      StatusesOk db0.orders (L.foldl (sweep_step gw) acc).1.orders := by
  intro L
  induction L with
  | nil => intro acc h; exact h
  | cons pid rest ih =>
    intro acc h
    rw [List.foldl_cons]
    exact ih _ (statusesOk_trans h (statusesOk_check_one gw acc.1 pid))

theorem statusesOk_check_stop_losses (gw : Gateway) (db : DB) :
    StatusesOk db.orders (check_stop_losses gw db).1.orders := by
  simp only [check_stop_losses]
  exact statusesOk_sweep_fold gw db _ (db, 0, []) (statusesOk_refl _)

theorem statusesOk_resolve (db : DB) (uid : Nat) (ids : List String)
    (now : Nat) :
    StatusesOk db.orders (resolve_missing_live_orders db uid ids now).1.orders := by
  unfold resolve_missing_live_orders
  repeat' (first | split | dsimp only)
  all_goals
    first
    | exact statusesOk_refl _
    | exact statusesOk_updateWhere (fun a => ⟨rfl, Or.inr (Or.inl rfl)⟩)

/-- C4 counterexample: the claim says MATCHED/CANCELLED are terminal under
all listed operations, but `set_stop_loss` unconditionally sets
`status = "LIVE"` on the existing synthetic `sl-<id>` order row: starting
from the CANCELLED watch order, re-setting a stop loss reopens it. -/
theorem c4_counterexample :
    exSLc.status = "CANCELLED" ∧
    (((set_stop_loss exDBc exUser 1 1 7).2.orders.find?
        (fun o => o.polymarket_order_id == "sl-1")).map Order.status) =
      some "LIVE" := by
  constructor
  · rfl
  · rfl

theorem terminal_of_statusesOk {db : DB} {o : Order} {l' : List Order}
    (hnodup : (db.orders.map Order.id).Nodup) (ho : o ∈ db.orders)
    (hterm : o.status ≠ "LIVE") (hok : StatusesOk db.orders l') :
    ∀ q ∈ l', q.id = o.id → q.status ≠ "LIVE" := by
  intro q hq hid
  obtain ⟨r, hr, hrid, hst⟩ := hok q hq
  have hro : r = o := List.inj_on_of_nodup_map hnodup hr ho (hrid.trans hid)
  subst hro
  rcases hst with h | h | h
  · rw [h]; exact hterm
  · rw [h]; decide
  · rw [h]; decide

/-- C4 (amended): a MATCHED or CANCELLED order is never transitioned back
to LIVE by `remove_stop_loss`, `cancel_order`, `edit_order`, the stop-loss
sweep, or the disappearance-resolution path.  (The unamended claim also
covered `set_stop_loss` and the order-sync upsert: `set_stop_loss` revives
the synthetic STOP_LOSS row to LIVE — see the counterexample — and the
upsert overwrites `status` with the externally reported status regardless
of the stored one.) -/
theorem c4_terminal_statuses (gw : Gateway) (db : DB) (user : User)
    (pid oid : Nat) (price : ℚ) (ids : List String) (now : Nat) (o : Order)
    (hnodup : (db.orders.map Order.id).Nodup)
    (ho : o ∈ db.orders) (hterm : o.status ≠ "LIVE") :
    (∀ q ∈ (remove_stop_loss db user pid).2.orders,
      q.id = o.id → q.status ≠ "LIVE") ∧
    (∀ q ∈ (cancel_order gw db user oid).2.orders,
      q.id = o.id → q.status ≠ "LIVE") ∧
    (∀ q ∈ (edit_order gw db user oid price).2.1.orders,
      q.id = o.id → q.status ≠ "LIVE") ∧
    (∀ q ∈ (check_stop_losses gw db).1.orders,
      q.id = o.id → q.status ≠ "LIVE") ∧
    (∀ q ∈ (resolve_missing_live_orders db user.id ids now).1.orders,
      q.id = o.id → q.status ≠ "LIVE") :=
  ⟨terminal_of_statusesOk hnodup ho hterm (statusesOk_remove_stop_loss db user pid),
   terminal_of_statusesOk hnodup ho hterm (statusesOk_cancel_order gw db user oid),
   terminal_of_statusesOk hnodup ho hterm (statusesOk_edit_order gw db user oid price),
   terminal_of_statusesOk hnodup ho hterm (statusesOk_check_stop_losses gw db),
   terminal_of_statusesOk hnodup ho hterm (statusesOk_resolve db user.id ids now)⟩

/-- C4 witness: the CANCELLED `sl-1` watch order stays non-LIVE through a
stop-loss sweep over its database. -/
theorem c4_terminal_statuses_witness :
    exSLc ∈ (check_stop_losses exGW exDBc).1.orders ∧ exSLc.status ≠ "LIVE" := by
  have hmem : exSLc ∈ (check_stop_losses exGW exDBc).1.orders := by
    show exSLc ∈ [exSLc]
    exact List.mem_singleton_self _
  exact ⟨hmem, (c4_terminal_statuses exGW exDBc exUser 1 2 (1/2) [] 3 exSLc
    (by decide) (by simp [exDBc]) (by decide)).2.2.2.1 exSLc hmem rfl⟩

/-! ### Claims C1 and C6 — the stop-loss sweep

The sweep is a fold of `check_one_stop_loss` over the ids of the eligible
positions.  `check_one_frame` shows one iteration for position id `q` only
ever touches the position row with id `q` and the order row with
polymarket id `sl-<q>`; `sweep_fold_frame` lifts this over a run of
iterations; `check_one_self` computes the iteration for the position under
scrutiny; `sweep_localized` combines them into the per-position behavior
of the whole sweep. -/

theorem check_one_frame (gw : Gateway) (db : DB) (q : Nat)
    (Q : Position → Bool) (R : Order → Bool)
    (hQ : ∀ r : Position, r.id = q → Q r = false)
    (hR : ∀ o : Order, o.polymarket_order_id = synthetic_sl_id q → R o = false) :
    (check_one_stop_loss gw db q).1.positions.find? Q = db.positions.find? Q ∧
    (check_one_stop_loss gw db q).1.orders.find? R = db.orders.find? R ∧
    (check_one_stop_loss gw db q).1.users = db.users ∧
    (check_one_stop_loss gw db q).1.positions.map Position.id =
      db.positions.map Position.id ∧
    ((check_one_stop_loss gw db q).2.2 = [] ∨
      (check_one_stop_loss gw db q).2.2 = [q]) := by
  unfold check_one_stop_loss
  cases hfind : db.positions.find? (fun p => p.id == q) with
  | none => exact ⟨rfl, rfl, rfl, rfl, Or.inl rfl⟩
  | some position =>
    have hpid : position.id = q := by simpa using List.find?_some hfind
    dsimp only
    cases hprice : gw.get_price position.token_id "sell" with
    | none => exact ⟨rfl, rfl, rfl, rfl, Or.inl rfl⟩
    | some current_price =>
      dsimp only
      cases hsl : position.stop_loss_price with
      | none => exact ⟨rfl, rfl, rfl, rfl, Or.inl rfl⟩
      | some sl_price =>
        dsimp only
        by_cases hle : current_price ≤ sl_price
        · rw [if_pos hle]
          cases huser : get_user db position.user_id with
          | none => exact ⟨rfl, rfl, rfl, rfl, Or.inl rfl⟩
          | some user =>
            dsimp only
            by_cases hpk : (!user.has_private_key) = true
            · rw [if_pos hpk]
              exact ⟨rfl, rfl, rfl, rfl, Or.inl rfl⟩
            · rw [if_neg hpk]
              cases hms : (market_sell gw db user position.id).1 with
              | error e => exact ⟨rfl, rfl, rfl, rfl, Or.inr rfl⟩
              | ok res =>
                dsimp only
                have hposfind :
                    (updateWhere (fun r => r.id == position.id)
                      (fun p => { p with stop_loss_price := none })
                      db.positions).find? Q = db.positions.find? Q := by
                  apply find?_updateWhere_disjoint
                  intro a ha
                  have ha' : a.id = q := by
                    simpa using (beq_iff_eq.mp ha).trans hpid
                  exact ⟨hQ a ha', hQ _ ha'⟩
                have hmap :
                    (updateWhere (fun r => r.id == position.id)
                      (fun p => { p with stop_loss_price := none })
                      db.positions).map Position.id =
                    db.positions.map Position.id :=
                  @updateWhere_map_eq Position Nat
                    (fun r => r.id == position.id)
                    (fun p => { p with stop_loss_price := none })
                    Position.id (fun a => rfl) db.positions
                cases hsyn : get_by_synthetic_id (db.updatePosition position.id
                    fun p => { p with stop_loss_price := none })
                    position.user_id (synthetic_sl_id position.id) with
                | none => exact ⟨hposfind, rfl, rfl, hmap, Or.inr rfl⟩
                | some sl_order =>
                  dsimp only
                  by_cases hlive : sl_order.status = "LIVE"
                  · rw [if_pos hlive]
                    refine ⟨hposfind, ?_, rfl, hmap, Or.inr rfl⟩
                    apply find?_updateFirst_disjoint
                    intro a ha
                    have hapm : a.polymarket_order_id = synthetic_sl_id q := by
                      have h2 := ha
                      rw [Bool.and_eq_true] at h2
                      rw [beq_iff_eq.mp h2.2, hpid]
                    refine ⟨hR a hapm, hR _ ?_⟩
                    show (sl_matched_update a).polymarket_order_id = _
                    exact hapm
                  · rw [if_neg hlive]
                    exact ⟨hposfind, rfl, rfl, hmap, Or.inr rfl⟩
        · rw [if_neg hle]
          exact ⟨rfl, rfl, rfl, rfl, Or.inl rfl⟩

/-- The sweep fold leaves alone the position row, the watch order, the user
table, the position id column and the trigger log of any position id `t`
that is not in the processed id list. -/
theorem sweep_fold_frame (gw : Gateway) (t uid : Nat) :
    ∀ (L : List Nat) (acc : DB × Nat × List Nat),
      (∀ x ∈ L, x ≠ t ∧ synthetic_sl_id x ≠ synthetic_sl_id t) →
      ((L.foldl (sweep_step gw) acc).1.positions.find?
            (fun r => r.id == t) =
        acc.1.positions.find? (fun r => r.id == t)) ∧
      ((L.foldl (sweep_step gw) acc).1.orders.find?
            (fun o => o.user_id == uid &&
              o.polymarket_order_id == synthetic_sl_id t) =
        acc.1.orders.find? (fun o => o.user_id == uid &&
          o.polymarket_order_id == synthetic_sl_id t)) ∧
      ((L.foldl (sweep_step gw) acc).1.users = acc.1.users) ∧
      ((L.foldl (sweep_step gw) acc).1.positions.map
            Position.id = acc.1.positions.map Position.id) ∧
      ((L.foldl (sweep_step gw) acc).2.2.count t = acc.2.2.count t) := by
  intro L
  induction L with
  | nil => intro acc _; exact ⟨rfl, rfl, rfl, rfl, rfl⟩
  | cons x rest ih =>
    intro acc hL
    obtain ⟨hxt, hxsl⟩ := hL x (List.mem_cons_self _ _)
    have hframe := check_one_frame gw acc.1 x
      (fun r => r.id == t)
      (fun o => o.user_id == uid && o.polymarket_order_id == synthetic_sl_id t)
      (fun r hr => by simp [hr, hxt])
      (fun o ho => by simp [ho, hxsl])
    rw [List.foldl_cons]
    obtain ⟨h1, h2, h3, h4, h5⟩ :=
      ih (sweep_step gw acc x)
        (fun y hy => hL y (List.mem_cons_of_mem _ hy))
    refine ⟨h1.trans hframe.1, h2.trans hframe.2.1, h3.trans hframe.2.2.1,
      h4.trans hframe.2.2.2.1, h5.trans ?_⟩
    have hc : (check_one_stop_loss gw acc.1 x).2.2.count t = 0 := by
      rcases hframe.2.2.2.2 with hlog | hlog <;> rw [hlog]
      · rfl
      · simp [List.count_cons, hxt, Ne.symm hxt]
    show (acc.2.2 ++ (check_one_stop_loss gw acc.1 x).2.2).count t =
      acc.2.2.count t
    rw [List.count_append, hc, Nat.add_zero]

/-- `_get_position` succeeds exactly on the first row matching id and
owner. -/
theorem _get_position_eq {db : DB} {usr : User} {pid : Nat} {p : Position}
    (h : db.positions.find?
      (fun r => r.id == pid && r.user_id == usr.id) = some p) :
    _get_position db usr pid = .ok p := by
  unfold _get_position
  rw [h]

/-- `market_sell` reads the database only through `_get_position`. -/
theorem market_sell_congr (gw : Gateway) (usr : User) (pid : Nat)
    {db db' : DB}
    (h : _get_position db usr pid = _get_position db' usr pid) :
    market_sell gw db usr pid = market_sell gw db' usr pid := by
  unfold market_sell
  rw [h]

/-- The sweep iteration for the scrutinized position itself: no trigger
above the threshold, one executor invocation at or below it, and on
executor success the stop loss is cleared and the LIVE watch order is
marked MATCHED with `size_filled = size`. -/
theorem check_one_self (gw : Gateway) (db1 : DB) (p : Position) (sl cp : ℚ)
    (usr : User)
    (hfind : db1.positions.find? (fun r => r.id == p.id) = some p)
    (hsl : p.stop_loss_price = some sl)
    (hprice : gw.get_price p.token_id "sell" = some cp)
    (husr : get_user db1 p.user_id = some usr)
    (hpk : usr.has_private_key = true) :
    (sl < cp → check_one_stop_loss gw db1 p.id = (db1, 0, [])) ∧
    (∀ e, cp ≤ sl → (market_sell gw db1 usr p.id).1 = .error e →
      check_one_stop_loss gw db1 p.id = (db1, 0, [p.id])) ∧
    (∀ res (so : Order), cp ≤ sl →
      (market_sell gw db1 usr p.id).1 = .ok res →
      db1.orders.find? (fun o => o.user_id == p.user_id &&
        o.polymarket_order_id == synthetic_sl_id p.id) = some so →
      so.status = "LIVE" →
      ((check_one_stop_loss gw db1 p.id).1.positions.find?
          (fun r => r.id == p.id) = some { p with stop_loss_price := none } ∧
       (check_one_stop_loss gw db1 p.id).1.orders.find?
          (fun o => o.user_id == p.user_id &&
            o.polymarket_order_id == synthetic_sl_id p.id) =
          some (sl_matched_update so) ∧
       (check_one_stop_loss gw db1 p.id).1.users = db1.users ∧
       (check_one_stop_loss gw db1 p.id).1.positions.map Position.id =
         db1.positions.map Position.id ∧
       (check_one_stop_loss gw db1 p.id).2.2 = [p.id])) ∧
    (∀ res, cp ≤ sl → (market_sell gw db1 usr p.id).1 = .ok res →
      (check_one_stop_loss gw db1 p.id).2.2 = [p.id]) := by
  unfold check_one_stop_loss
  rw [hfind]
  dsimp only
  rw [hprice]
  dsimp only
  rw [hsl]
  dsimp only
  refine ⟨?_, ?_, ?_, ?_⟩
  · intro hgt
    rw [if_neg (not_le.mpr hgt)]
  · intro e hle hms
    rw [if_pos hle, husr]
    dsimp only
    rw [if_neg (by simp [hpk]), hms]
  · intro res so hle hms hso hsolive
    rw [if_pos hle, husr]
    dsimp only
    rw [if_neg (by simp [hpk]), hms]
    dsimp only
    have hso' : get_by_synthetic_id
        (db1.updatePosition p.id fun r => { r with stop_loss_price := none })
        p.user_id (synthetic_sl_id p.id) = some so := hso
    rw [hso']
    dsimp only
    rw [if_pos hsolive]
    refine ⟨?_, ?_, rfl, ?_, rfl⟩
    · exact @find?_updateWhere_self Position (fun r => r.id == p.id)
        (fun r => { r with stop_loss_price := none }) (fun b => rfl)
        db1.positions p hfind
    · exact @find?_updateFirst_self Order
        (fun o => o.user_id == p.user_id &&
          o.polymarket_order_id == synthetic_sl_id p.id)
        sl_matched_update (fun b => rfl) db1.orders so hso
    · exact @updateWhere_map_eq Position Nat (fun r => r.id == p.id)
        (fun r => { r with stop_loss_price := none })
        Position.id (fun a => rfl) db1.positions
  · intro res hle hms
    rw [if_pos hle, husr]
    dsimp only
    rw [if_neg (by simp [hpk]), hms]

/-- Definitional unfolding of one sweep iteration. -/
theorem sweep_step_eq (gw : Gateway) (acc : DB × Nat × List Nat) (pid : Nat) :
    sweep_step gw acc pid =
      ((check_one_stop_loss gw acc.1 pid).1,
       acc.2.1 + (check_one_stop_loss gw acc.1 pid).2.1,
       acc.2.2 ++ (check_one_stop_loss gw acc.1 pid).2.2) := rfl

/-- Per-position behavior of one whole run of `check_stop_losses`, for an
eligible position `p` with LIVE watch order `so` and a credentialled owner:
above the threshold nothing happens to `p` or `so` and the executor is
never invoked for `p`; at or below it the executor is invoked exactly once,
and the outcome of that one `market_sell` decides whether `p` keeps its
stop loss (failure) or is cleared with `so` marked MATCHED (success). -/
theorem sweep_localized (gw : Gateway) (db : DB) (p : Position) (sl : ℚ)
    (usr : User) (so : Order)
    (hp : p ∈ db.positions) (hsl : p.stop_loss_price = some sl)
    (hsz : 0 < p.size) (hred : p.redeemable = false)
    (hids : (db.positions.map Position.id).Nodup)
    (hsyn : (db.positions.map fun r => synthetic_sl_id r.id).Nodup)
    (husr : get_user db p.user_id = some usr)
    (hpk : usr.has_private_key = true)
    (hso : db.orders.find? (fun o => o.user_id == p.user_id &&
      o.polymarket_order_id == synthetic_sl_id p.id) = some so)
    (cp : ℚ) (hcp : gw.get_price p.token_id "sell" = some cp) :
    (sl < cp →
      (check_stop_losses gw db).2.2.count p.id = 0 ∧
      (check_stop_losses gw db).1.positions.find? (fun r => r.id == p.id) =
        some p ∧
      (check_stop_losses gw db).1.orders.find? (fun o => o.user_id == p.user_id &&
        o.polymarket_order_id == synthetic_sl_id p.id) = some so) ∧
    (cp ≤ sl →
      (check_stop_losses gw db).2.2.count p.id = 1 ∧
      (∀ e, (market_sell gw db usr p.id).1 = .error e →
        (check_stop_losses gw db).1.positions.find? (fun r => r.id == p.id) =
          some p ∧
        (check_stop_losses gw db).1.orders.find? (fun o => o.user_id == p.user_id &&
          o.polymarket_order_id == synthetic_sl_id p.id) = some so) ∧
      (∀ res, (market_sell gw db usr p.id).1 = .ok res → so.status = "LIVE" →
        (check_stop_losses gw db).1.positions.find? (fun r => r.id == p.id) =
          some { p with stop_loss_price := none } ∧
        (check_stop_losses gw db).1.orders.find? (fun o => o.user_id == p.user_id &&
          o.polymarket_order_id == synthetic_sl_id p.id) =
          some (sl_matched_update so))) := by
  -- `p` is selected by the sweep
  have helig : sl_eligible p = true := by
    simp [sl_eligible, hsl, hsz, hred]
  have hpmem : p.id ∈ (db.positions.filter sl_eligible).map Position.id :=
    List.mem_map_of_mem _ (List.mem_filter.mpr ⟨hp, helig⟩)
  obtain ⟨l₁, l₂, hsplit⟩ := List.append_of_mem hpmem
  have hnodupPids : ((db.positions.filter sl_eligible).map Position.id).Nodup :=
    ((List.filter_sublist db.positions).map Position.id).nodup hids
  rw [hsplit] at hnodupPids
  have hnl : p.id ∉ l₁ ∧ p.id ∉ l₂ := by
    rw [List.nodup_append] at hnodupPids
    obtain ⟨_, h2, h3⟩ := hnodupPids
    rw [List.nodup_cons] at h2
    exact ⟨fun hs => (h3 hs) (List.mem_cons_self _ _), h2.1⟩
  have hof : ∀ x, (x ∈ l₁ ∨ x ∈ l₂) →
      x ≠ p.id ∧ synthetic_sl_id x ≠ synthetic_sl_id p.id := by
    intro x hx
    have hxp : x ∈ (db.positions.filter sl_eligible).map Position.id := by
      rw [hsplit]
      rcases hx with h | h
      · exact List.mem_append_left _ h
      · exact List.mem_append_right _ (List.mem_cons_of_mem _ h)
    have hne : x ≠ p.id := by
      rintro rfl
      rcases hx with h | h
      · exact hnl.1 h
      · exact hnl.2 h
    refine ⟨hne, fun hcontra => ?_⟩
    obtain ⟨r, hrf, rfl⟩ := List.mem_map.mp hxp
    have hrdb : r ∈ db.positions := (List.mem_filter.mp hrf).1
    have := List.inj_on_of_nodup_map hsyn hrdb hp hcontra
    exact hne (by rw [this])
  -- facts about the initial database
  have hfind0 : db.positions.find? (fun r => r.id == p.id) = some p :=
    find?_of_nodup_key hids hp
  have husrid : usr.id = p.user_id := by
    simpa using List.find?_some husr
  have hand : ∀ b : Position,
      (b.id == p.id && b.user_id == usr.id) = true → (b.id == p.id) = true := by
    intro b hb
    rw [Bool.and_eq_true] at hb
    exact hb.1
  have hgp0 : _get_position db usr p.id = .ok p :=
    _get_position_eq (find?_of_stronger_pred hand hfind0 (by simp [husrid]))
  -- expose the fold split
  have hrw : check_stop_losses gw db =
      l₂.foldl (sweep_step gw)
        (sweep_step gw (l₁.foldl (sweep_step gw) (db, 0, [])) p.id) := by
    show (((db.positions.filter sl_eligible).map Position.id).foldl
      (sweep_step gw) (db, 0, [])) = _
    rw [hsplit, List.foldl_append, List.foldl_cons]
  -- the accumulator before `p`'s iteration
  obtain ⟨hA1, hA2, hA3, hA4, hA5⟩ :=
    sweep_fold_frame gw p.id p.user_id l₁ (db, 0, [])
      (fun x hx => hof x (Or.inl hx))
  have hAfind : (l₁.foldl (sweep_step gw) (db, 0, [])).1.positions.find?
      (fun r => r.id == p.id) = some p := hA1.trans hfind0
  have hAso : (l₁.foldl (sweep_step gw) (db, 0, [])).1.orders.find?
      (fun o => o.user_id == p.user_id &&
        o.polymarket_order_id == synthetic_sl_id p.id) = some so :=
    hA2.trans hso
  have hAcount : (l₁.foldl (sweep_step gw) (db, 0, [])).2.2.count p.id = 0 := by
    simpa using hA5
  have husrA : get_user (l₁.foldl (sweep_step gw) (db, 0, [])).1 p.user_id =
      some usr := by
    show (l₁.foldl (sweep_step gw) (db, 0, [])).1.users.find?
      (fun u => u.id == p.user_id) = some usr
    rw [hA3]
    exact husr
  have hgpA : _get_position (l₁.foldl (sweep_step gw) (db, 0, [])).1 usr p.id =
      .ok p :=
    _get_position_eq (find?_of_stronger_pred hand hAfind (by simp [husrid]))
  have hmsA : market_sell gw (l₁.foldl (sweep_step gw) (db, 0, [])).1 usr p.id =
      market_sell gw db usr p.id :=
    market_sell_congr gw usr p.id (by rw [hgpA, hgp0])
  have hself := check_one_self gw (l₁.foldl (sweep_step gw) (db, 0, [])).1
    p sl cp usr hAfind hsl hcp husrA hpk
  obtain ⟨hB1, hB2, _, _, hB5⟩ :=
    sweep_fold_frame gw p.id p.user_id l₂
      (sweep_step gw (l₁.foldl (sweep_step gw) (db, 0, [])) p.id)
      (fun x hx => hof x (Or.inr hx))
  constructor
  · -- above the threshold: nothing happens to p and no executor call
    intro hgt
    have hstep : sweep_step gw (l₁.foldl (sweep_step gw) (db, 0, [])) p.id =
        ((l₁.foldl (sweep_step gw) (db, 0, [])).1,
         (l₁.foldl (sweep_step gw) (db, 0, [])).2.1 + 0,
         (l₁.foldl (sweep_step gw) (db, 0, [])).2.2 ++ []) := by
      rw [sweep_step_eq, hself.1 hgt]
    rw [hrw]
    refine ⟨?_, ?_, ?_⟩
    · rw [hB5, hstep]
      simpa using hAcount
    · rw [hB1, hstep]
      exact hAfind
    · rw [hB2, hstep]
      exact hAso
  · intro hle
    refine ⟨?_, ?_, ?_⟩
    · -- the executor is invoked exactly once for p
      rw [hrw, hB5]
      show ((l₁.foldl (sweep_step gw) (db, 0, [])).2.2 ++
        (check_one_stop_loss gw (l₁.foldl (sweep_step gw) (db, 0, [])).1
          p.id).2.2).count p.id = 1
      have hlog : (check_one_stop_loss gw
          (l₁.foldl (sweep_step gw) (db, 0, [])).1 p.id).2.2 = [p.id] := by
        cases hms : (market_sell gw (l₁.foldl (sweep_step gw) (db, 0, [])).1
            usr p.id).1 with
        | error e => rw [hself.2.1 e hle hms]
        | ok res => exact hself.2.2.2 res hle hms
      rw [List.count_append, hlog, hAcount]
      simp
    · -- executor failure: p and its watch order are untouched
      intro e hms0
      have hmsA1 : (market_sell gw (l₁.foldl (sweep_step gw) (db, 0, [])).1
          usr p.id).1 = .error e := by
        rw [hmsA, hms0]
      have hstep : sweep_step gw (l₁.foldl (sweep_step gw) (db, 0, [])) p.id =
          ((l₁.foldl (sweep_step gw) (db, 0, [])).1,
           (l₁.foldl (sweep_step gw) (db, 0, [])).2.1 + 0,
           (l₁.foldl (sweep_step gw) (db, 0, [])).2.2 ++ [p.id]) := by
        rw [sweep_step_eq, hself.2.1 e hle hmsA1]
      rw [hrw]
      constructor
      · rw [hB1, hstep]
        exact hAfind
      · rw [hB2, hstep]
        exact hAso
    · -- executor success: stop loss cleared, watch order MATCHED
      intro res hms0 hsolive
      have hmsA1 : (market_sell gw (l₁.foldl (sweep_step gw) (db, 0, [])).1
          usr p.id).1 = .ok res := by
        rw [hmsA, hms0]
      obtain ⟨hc1, hc2, _, _, _⟩ :=
        hself.2.2.1 res so hle hmsA1 hAso hsolive
      rw [hrw]
      constructor
      · rw [hB1]
        exact hc1
      · rw [hB2]
        exact hc2

/-! ### Claim C1 — one run of the stop-loss sweep -/

/-- C1: for an eligible position (non-null stop loss, positive size, not
redeemable) whose owner is credentialled and whose LIVE synthetic watch
order `sl-<position-id>` is stored, one run of `check_stop_losses` behaves
as follows.  If the fetched sell-side price is at or below the stop loss,
the sell executor is invoked exactly once for the position and, on executor
success, the position's `stop_loss_price` is cleared and the watch order is
set to MATCHED with `size_filled` equal to its size.  If the fetched price
is strictly above the stop loss, the executor is never invoked and both the
position and its watch order are unchanged. -/
theorem c1_stop_loss_sweep (gw : Gateway) (db : DB) (p : Position) (sl : ℚ)
    (usr : User) (so : Order)
    (hp : p ∈ db.positions) (hsl : p.stop_loss_price = some sl)
    (hsz : 0 < p.size) (hred : p.redeemable = false)
    (hids : (db.positions.map Position.id).Nodup)
    (hsyn : (db.positions.map fun r => synthetic_sl_id r.id).Nodup)
    (husr : get_user db p.user_id = some usr)
    (hpk : usr.has_private_key = true)
    (hso : db.orders.find? (fun o => o.user_id == p.user_id &&
      o.polymarket_order_id == synthetic_sl_id p.id) = some so)
    (hsolive : so.status = "LIVE")
    (cp : ℚ) (hcp : gw.get_price p.token_id "sell" = some cp) :
    (cp ≤ sl →
      (check_stop_losses gw db).2.2.count p.id = 1 ∧
      (∀ res, (market_sell gw db usr p.id).1 = .ok res →
        (check_stop_losses gw db).1.positions.find? (fun r => r.id == p.id) =
          some { p with stop_loss_price := none } ∧
        (check_stop_losses gw db).1.orders.find? (fun o => o.user_id == p.user_id &&
          o.polymarket_order_id == synthetic_sl_id p.id) =
          some (sl_matched_update so) ∧
        (sl_matched_update so).status = "MATCHED" ∧
        (sl_matched_update so).size_filled = so.size)) ∧
    (sl < cp →
      (check_stop_losses gw db).2.2.count p.id = 0 ∧
      (check_stop_losses gw db).1.positions.find? (fun r => r.id == p.id) =
        some p ∧
      (check_stop_losses gw db).1.orders.find? (fun o => o.user_id == p.user_id &&
        o.polymarket_order_id == synthetic_sl_id p.id) = some so) := by
  have h := sweep_localized gw db p sl usr so hp hsl hsz hred hids hsyn
    husr hpk hso cp hcp
  refine ⟨fun hle => ?_, fun hgt => ?_⟩
  · obtain ⟨hcount, _, hsucc⟩ := h.2 hle
    refine ⟨hcount, fun res hms => ?_⟩
    obtain ⟨h1, h2⟩ := hsucc res hms hsolive
    exact ⟨h1, h2, rfl, rfl⟩
  · exact h.1 hgt

/-- C1 at the concrete division-free fixture: sell price 1 is at or below
the stop loss 2, the executor fires once, the stop loss is cleared and the
watch order `sl-11` ends MATCHED. -/
theorem c1_stop_loss_sweep_witness :
    (1:ℚ) ≤ 2 ∧
    (check_stop_losses exGWC1 exDBC1).2.2.count exPosC1.id = 1 ∧
    (check_stop_losses exGWC1 exDBC1).1.positions.find?
        (fun r => r.id == exPosC1.id) =
      some { exPosC1 with stop_loss_price := none } ∧
    (check_stop_losses exGWC1 exDBC1).1.orders.find?
        (fun o => o.user_id == exPosC1.user_id &&
          o.polymarket_order_id == synthetic_sl_id exPosC1.id) =
      some (sl_matched_update exSLC1) := by
  have hle : (1:ℚ) ≤ 2 := by norm_num
  have h := c1_stop_loss_sweep exGWC1 exDBC1 exPosC1 2 exUser exSLC1
    (List.mem_singleton.mpr rfl) rfl (show (0:ℚ) < 50 by norm_num) rfl
    (by simp [exDBC1]) (by simp [exDBC1]) rfl rfl rfl rfl 1 rfl
  obtain ⟨hcount, hres⟩ := h.1 hle
  obtain ⟨h1, h2, _, _⟩ := hres
    { message := "Market sell order placed for " ++ toString (50:ℚ) ++
        " tokens at " ++ toString (1:ℚ), order_id := some "ord-c1" } rfl
  exact ⟨hle, hcount, h1, h2⟩

/-! ### Claim C6 — sweep failure isolation and retry -/

/-- C6: in one stop-loss sweep, an executor failure for position `p` does
not prevent another triggered position `q` in the same sweep from being
evaluated, triggered and committed: `q`'s sell is invoked exactly once, its
stop loss is cleared and its watch order ends MATCHED, while `p` — whose
sell was also attempted exactly once — is left untouched, its
`stop_loss_price` still set so the next tick retries it. -/
theorem c6_sweep_failure_isolation (gw : Gateway) (db : DB)
    (p q : Position) (slp slq : ℚ) (usrp usrq : User) (sop soq : Order)
    (e : String) (res : ActionOk)
    (hp : p ∈ db.positions) (hq : q ∈ db.positions)
    (hslp : p.stop_loss_price = some slp)
    (hslq : q.stop_loss_price = some slq)
    (hszp : 0 < p.size) (hszq : 0 < q.size)
    (hredp : p.redeemable = false) (hredq : q.redeemable = false)
    (hids : (db.positions.map Position.id).Nodup)
    (hsyn : (db.positions.map fun r => synthetic_sl_id r.id).Nodup)
    (husrp : get_user db p.user_id = some usrp)
    (husrq : get_user db q.user_id = some usrq)
    (hpkp : usrp.has_private_key = true)
    (hpkq : usrq.has_private_key = true)
    (hsop : db.orders.find? (fun o => o.user_id == p.user_id &&
      o.polymarket_order_id == synthetic_sl_id p.id) = some sop)
    (hsoq : db.orders.find? (fun o => o.user_id == q.user_id &&
      o.polymarket_order_id == synthetic_sl_id q.id) = some soq)
    (hsoqlive : soq.status = "LIVE")
    (cpp cpq : ℚ)
    (hcpp : gw.get_price p.token_id "sell" = some cpp)
    (hcpq : gw.get_price q.token_id "sell" = some cpq)
    (hlep : cpp ≤ slp) (hleq : cpq ≤ slq)
    (hfail : (market_sell gw db usrp p.id).1 = .error e)
    (hok : (market_sell gw db usrq q.id).1 = .ok res) :
    (check_stop_losses gw db).2.2.count p.id = 1 ∧
    (check_stop_losses gw db).1.positions.find? (fun r => r.id == p.id) =
      some p ∧
    p.stop_loss_price = some slp ∧
    (check_stop_losses gw db).2.2.count q.id = 1 ∧
    (check_stop_losses gw db).1.positions.find? (fun r => r.id == q.id) =
      some { q with stop_loss_price := none } ∧
    (check_stop_losses gw db).1.orders.find? (fun o => o.user_id == q.user_id &&
      o.polymarket_order_id == synthetic_sl_id q.id) =
      some (sl_matched_update soq) := by
  have hP := sweep_localized gw db p slp usrp sop hp hslp hszp hredp hids hsyn
    husrp hpkp hsop cpp hcpp
  have hQ := sweep_localized gw db q slq usrq soq hq hslq hszq hredq hids hsyn
    husrq hpkq hsoq cpq hcpq
  obtain ⟨hpc, hfr, _⟩ := hP.2 hlep
  obtain ⟨hqc, _, hqs⟩ := hQ.2 hleq
  obtain ⟨hq1, hq2⟩ := hqs res hok hsoqlive
  exact ⟨hpc, (hfr e hfail).1, hslp, hqc, hq1, hq2⟩

/-- C6 at the concrete two-position fixture: the exchange refuses the sell
for `tokP` yet the `tokQ` position in the same sweep is still triggered and
committed, and the failed position keeps `stop_loss_price = 2`. -/
theorem c6_sweep_failure_isolation_witness :
    (check_stop_losses exGWC6 exDBC6).2.2.count exPosP.id = 1 ∧
    (check_stop_losses exGWC6 exDBC6).1.positions.find?
        (fun r => r.id == exPosP.id) = some exPosP ∧
    exPosP.stop_loss_price = some 2 ∧
    (check_stop_losses exGWC6 exDBC6).2.2.count exPosQ.id = 1 ∧
    (check_stop_losses exGWC6 exDBC6).1.positions.find?
        (fun r => r.id == exPosQ.id) =
      some { exPosQ with stop_loss_price := none } ∧
    (check_stop_losses exGWC6 exDBC6).1.orders.find?
        (fun o => o.user_id == exPosQ.user_id &&
          o.polymarket_order_id == synthetic_sl_id exPosQ.id) =
      some (sl_matched_update exSLQ) :=
  c6_sweep_failure_isolation exGWC6 exDBC6 exPosP exPosQ 2 3 exUser exUser
    exSLP exSLQ "exchange down"
    { message := "Market sell order placed for " ++ toString (40:ℚ) ++
        " tokens at " ++ toString (1:ℚ), order_id := some "ord-q" }
    (by simp [exDBC6]) (by simp [exDBC6]) rfl rfl
    (show (0:ℚ) < 50 by norm_num) (show (0:ℚ) < 40 by norm_num) rfl rfl
    (by simp [exDBC6, exPosP, exPosQ, exPosC1])
    (by decide)
    rfl rfl rfl rfl rfl rfl rfl 1 1 rfl rfl
    (show (1:ℚ) ≤ 2 by norm_num) (show (1:ℚ) ≤ 3 by norm_num) rfl rfl

end Cabinet
